import Mathlib

/-!
Verification development for the note-organizer repository.

This file gives a shallow embedding, in Lean 4, of the normalization-and-import
engine of `export_to_sqlite.py`: the macOS date parser `parse_macos_date`, the
relational schema constraints declared in `NotesDatabase.create_schema`, the
per-note import procedure `NotesDatabase.import_note` (with SQLite insert /
insert-or-ignore semantics made explicit), the main import loop, the cascade
behaviour of note deletion under the declared foreign keys, and the date-range
query of `NotesDatabase.generate_statistics`.  Theorems about the embedding
settle the specification claims.

HTML-to-plain-text conversion is an external collaborator of the engine (it is
consumed as a pure function `String → String`); the embedding therefore takes
that function as an explicit parameter wherever `import_note` uses it.
-/

set_option maxRecDepth 10000

/-! ## Calendar timestamps

`datetime` values are modelled by their six displayed components.  SQLite
stores them in the zero-padded ISO text form, whose lexicographic order agrees
with the lexicographic order of the components, which `dtLe` implements. -/

structure DateTime where
  year : Nat
  month : Nat
  day : Nat
  hour : Nat
  minute : Nat
  second : Nat
deriving DecidableEq, Repr

/-- Lexicographic (chronological) comparison of timestamps; this is the order
SQLite's MIN/MAX aggregates use on the stored ISO text representation. -/
def dtLe (a b : DateTime) : Bool :=
  if a.year ≠ b.year then a.year < b.year
  else if a.month ≠ b.month then a.month < b.month
  else if a.day ≠ b.day then a.day < b.day
  else if a.hour ≠ b.hour then a.hour < b.hour
  else if a.minute ≠ b.minute then a.minute < b.minute
  else a.second ≤ b.second

/-! ## Character-level helpers for the date parser

The Python parser works with `re` and `datetime.strptime`; the helpers below
reproduce exactly the character classes involved (`[A-Za-z]`, `\s`, `\d`) and
the prefix/containment scans the regex engine performs. -/

/-- The regex class `[A-Za-z]`. -/
def isAsciiAlpha (c : Char) : Bool :=
  ('A' ≤ c && c ≤ 'Z') || ('a' ≤ c && c ≤ 'z')

/-- The regex class `\s` (Python ASCII whitespace). -/
def isPyWhitespace (c : Char) : Bool :=
  c == ' ' || c == '\t' || c == '\n' || c == '\r' || c == '\x0b' || c == '\x0c'

/-- Lower-case an ASCII letter (for the case-insensitive strptime matching). -/
def charLower (c : Char) : Char :=
  if 'A' ≤ c && c ≤ 'Z' then Char.ofNat (c.toNat + 32) else c

/-- Does `pat` occur at the head of `cs`? -/
def seqStartsWith : List Char → List Char → Bool
  | [], _ => true
  | _ :: _, [] => false
  | p :: ps, c :: cs => p == c && seqStartsWith ps cs

/-- Does `pat` occur at the head of `cs`, comparing case-insensitively
(`pat` is given lower-case)? -/
def seqStartsWithCI : List Char → List Char → Bool
  | [], _ => true
  | _ :: _, [] => false
  | p :: ps, c :: cs => p == charLower c && seqStartsWithCI ps cs

/-- Does `pat` occur anywhere in `cs`?  (Python `pat in s`.) -/
def seqContains (pat : List Char) : List Char → Bool
  | [] => seqStartsWith pat []
  | c :: cs => seqStartsWith pat (c :: cs) || seqContains pat cs

/-- Split `cs` at the first occurrence of `pat`: the part before it and the
part after it.  `none` when `pat` does not occur.  (First step of Python
`s.split(pat)`.) -/
def splitFirst (pat : List Char) : List Char → Option (List Char × List Char)
  | [] => if seqStartsWith pat [] then some ([], []) else none
  | c :: cs =>
    if seqStartsWith pat (c :: cs) then some ([], (c :: cs).drop pat.length)
    else (splitFirst pat cs).map (fun pr => (c :: pr.1, pr.2))

/-- Strip a leading `[A-Za-z]+,\s+` (the `re.sub` removing the weekday).
The alternation-free anchored pattern strips the maximal alpha run, the comma
and the maximal whitespace run, or leaves the input unchanged when the pattern
does not match at the start. -/
def stripWeekday (cs : List Char) : List Char :=
  let p := cs.span isAsciiAlpha
  match p.2 with
  | ',' :: rest =>
    if p.1.isEmpty then cs
    else
      let q := rest.span isPyWhitespace
      if q.1.isEmpty then cs else q.2
  | _ => cs

/-! ## strptime field matchers

Each matcher mirrors the regex fragment CPython's `_strptime` builds for the
corresponding directive (`%d` ↦ `3[01]|[12]\d|0[1-9]|[1-9]`, `%H` ↦
`2[0-3]|[0-1]\d|\d`, `%M` ↦ `[0-5]\d|\d`, `%S` ↦ `6[0-1]|[0-5]\d|\d`,
`%I`/`%m` ↦ `1[0-2]|0[1-9]|[1-9]`, `%Y` ↦ `\d{4}`, a whitespace run in the
format ↦ `\s+`), returning the numeric value and the unconsumed input. -/

/-- Digit value of an ASCII digit character. -/
def digitVal (c : Char) : Nat := c.toNat - 48

/-- Match a one- or two-digit field whose two-digit values range over
`lo2..hi2` and whose one-digit values range over `lo1..9`.  (The regex
alternations put the two-digit alternatives first, and no backtracking into
the one-digit alternative can succeed when the two-digit branch consumed two
digits, because the follow-up token is never a digit.) -/
def parseNum2 (lo2 hi2 lo1 : Nat) : List Char → Option (Nat × List Char)
  | c1 :: c2 :: rest =>
    if c1.isDigit && c2.isDigit then
      let v := digitVal c1 * 10 + digitVal c2
      if lo2 ≤ v && v ≤ hi2 then some (v, rest)
      else if lo1 ≤ digitVal c1 then some (digitVal c1, c2 :: rest) else none
    else if c1.isDigit && lo1 ≤ digitVal c1 then some (digitVal c1, c2 :: rest)
    else none
  | [c1] =>
    if c1.isDigit && lo1 ≤ digitVal c1 then some (digitVal c1, []) else none
  | [] => none

/-- `%d`: day of month, `3[01]|[12]\d|0[1-9]|[1-9]`. -/
def parseDay : List Char → Option (Nat × List Char) := parseNum2 1 31 1

/-- `%H`: 24-hour hour, `2[0-3]|[0-1]\d|\d`. -/
def parseHour24 : List Char → Option (Nat × List Char) := parseNum2 0 23 0

/-- `%I` and `%m`: `1[0-2]|0[1-9]|[1-9]`. -/
def parseOneTo12 : List Char → Option (Nat × List Char) := parseNum2 1 12 1

/-- `%M`: minute, `[0-5]\d|\d`. -/
def parseMinute : List Char → Option (Nat × List Char) := parseNum2 0 59 0

/-- `%S`: second, `6[0-1]|[0-5]\d|\d` (leap seconds pass the regex but are
rejected later by the `datetime` constructor). -/
def parseSecond : List Char → Option (Nat × List Char) := parseNum2 0 61 0

/-- `%Y`: exactly four digits. -/
def parseYear4 : List Char → Option (Nat × List Char)
  | a :: b :: c :: d :: rest =>
    if a.isDigit && b.isDigit && c.isDigit && d.isDigit then
      some (digitVal a * 1000 + digitVal b * 100 + digitVal c * 10 + digitVal d, rest)
    else none
  | _ => none

/-- A whitespace run in the format string: `\s+`. -/
def parseWs (cs : List Char) : Option (List Char) :=
  let p := cs.span isPyWhitespace
  if p.1.isEmpty then none else some p.2

/-- A literal character in the format string. -/
def expectChar (ch : Char) : List Char → Option (List Char)
  | c :: cs => if c == ch then some cs else none
  | [] => none

/-! ## Month names and date validity -/

/-- `%B`: the full month names (lower-cased; matching is case-insensitive). -/
def fullMonths : List (List Char × Nat) :=
  [("january".toList, 1), ("february".toList, 2), ("march".toList, 3),
   ("april".toList, 4), ("may".toList, 5), ("june".toList, 6),
   ("july".toList, 7), ("august".toList, 8), ("september".toList, 9),
   ("october".toList, 10), ("november".toList, 11), ("december".toList, 12)]

/-- `%b`: the abbreviated month names. -/
def abbrMonths : List (List Char × Nat) :=
  [("jan".toList, 1), ("feb".toList, 2), ("mar".toList, 3), ("apr".toList, 4),
   ("may".toList, 5), ("jun".toList, 6), ("jul".toList, 7), ("aug".toList, 8),
   ("sep".toList, 9), ("oct".toList, 10), ("nov".toList, 11), ("dec".toList, 12)]

/-- Match one of the month names case-insensitively at the head of the input
(no two names are prefixes of each other, so the alternation is
deterministic). -/
def matchMonth : List (List Char × Nat) → List Char → Option (Nat × List Char)
  | [], _ => none
  | (nm, m) :: rest, cs =>
    if seqStartsWithCI nm cs then some (m, cs.drop nm.length)
    else matchMonth rest cs

/-- Gregorian leap year, as `datetime` uses. -/
def isLeap (y : Nat) : Bool := (y % 4 == 0 && y % 100 != 0) || (y % 400 == 0)

/-- Days in a month, as the `datetime` constructor validates. -/
def daysInMonth (y m : Nat) : Nat :=
  if m == 2 then (if isLeap y then 29 else 28)
  else if m == 4 || m == 6 || m == 9 || m == 11 then 30
  else 31

/-! ## The date and time formats of `parse_macos_date` -/

/-- Match the date part against `"%B %d, %Y"` / `"%b %d, %Y"` with the given
month-name table, requiring the whole input to be consumed and the result to
be a constructible `datetime` date (year ≥ 1, day within the month). -/
def matchDateMdY (names : List (List Char × Nat)) (cs : List Char) :
    Option (Nat × Nat × Nat) :=
  match matchMonth names cs with
  | none => none
  | some (m, cs) =>
    match parseWs cs with
    | none => none
    | some cs =>
      match parseDay cs with
      | none => none
      | some (d, cs) =>
        match expectChar ',' cs with
        | none => none
        | some cs =>
          match parseWs cs with
          | none => none
          | some cs =>
            match parseYear4 cs with
            | some (y, []) =>
              if 1 ≤ y && d ≤ daysInMonth y m then some (y, m, d) else none
            | _ => none

/-- Match the time part against `"%H:%M:%S"` (whole input; seconds ≥ 60 pass
the regex but fail `datetime` construction, hence fail the format). -/
def matchTimeHMS (cs : List Char) : Option (Nat × Nat × Nat) :=
  match parseHour24 cs with
  | none => none
  | some (h, cs) =>
    match expectChar ':' cs with
    | none => none
    | some cs =>
      match parseMinute cs with
      | none => none
      | some (mi, cs) =>
        match expectChar ':' cs with
        | none => none
        | some cs =>
          match parseSecond cs with
          | some (s, []) => if s ≤ 59 then some (h, mi, s) else none
          | _ => none

/-- Match the time part against `"%I:%M:%S %p"` (whole input), converting the
12-hour clock reading to the 24-hour value as `_strptime` does. -/
def matchTimeIMSp (cs : List Char) : Option (Nat × Nat × Nat) :=
  match parseOneTo12 cs with
  | none => none
  | some (h12, cs) =>
    match expectChar ':' cs with
    | none => none
    | some cs =>
      match parseMinute cs with
      | none => none
      | some (mi, cs) =>
        match expectChar ':' cs with
        | none => none
        | some cs =>
          match parseSecond cs with
          | none => none
          | some (s, cs) =>
            match parseWs cs with
            | none => none
            | some cs =>
              if s ≤ 59 then
                if seqStartsWithCI "am".toList cs && cs.length == 2 then
                  some ((if h12 == 12 then 0 else h12), mi, s)
                else if seqStartsWithCI "pm".toList cs && cs.length == 2 then
                  some ((if h12 == 12 then 12 else h12 + 12), mi, s)
                else none
              else none

/-- Match `"%Y-%m-%d %H:%M:%S"` (first fallback format, whole input). -/
def matchIsoDateTime (cs : List Char) : Option DateTime :=
  match parseYear4 cs with
  | none => none
  | some (y, cs) =>
    match expectChar '-' cs with
    | none => none
    | some cs =>
      match parseOneTo12 cs with
      | none => none
      | some (m, cs) =>
        match expectChar '-' cs with
        | none => none
        | some cs =>
          match parseDay cs with
          | none => none
          | some (d, cs) =>
            match parseWs cs with
            | none => none
            | some cs =>
              match matchTimeHMS cs with
              | some (h, mi, s) =>
                if 1 ≤ y && d ≤ daysInMonth y m then some ⟨y, m, d, h, mi, s⟩
                else none
              | none => none

/-- Match `"%Y-%m-%d"` (second fallback format, whole input); the time
defaults to midnight as in `datetime.strptime`. -/
def matchIsoDate (cs : List Char) : Option DateTime :=
  match parseYear4 cs with
  | none => none
  | some (y, cs) =>
    match expectChar '-' cs with
    | none => none
    | some cs =>
      match parseOneTo12 cs with
      | none => none
      | some (m, cs) =>
        match expectChar '-' cs with
        | none => none
        | some cs =>
          match parseDay cs with
          | some (d, []) =>
            if 1 ≤ y && d ≤ daysInMonth y m then some ⟨y, m, d, 0, 0, 0⟩
            else none
          | _ => none

/-- The fallback branch of `parse_macos_date`: the two standard formats tried
in order on the ORIGINAL input string. -/
def fallbackFormats (cs : List Char) : Option DateTime :=
  match matchIsoDateTime cs with
  | some dt => some dt
  | none => matchIsoDate cs

/-- `parse_macos_date` of `export_to_sqlite.py`: parse the macOS display date
format `"Saturday, November 8, 2025 at 21:59:06"`; empty and unparseable
strings yield `none`.

Control flow mirrors the Python exactly: the weekday prefix is stripped; when
`" at "` occurs once, the date part must parse (else `None` immediately) and
the two time formats are tried, falling through to the fallback formats (on
the original string) when neither time format matches; when `" at "` occurs
more than once the tuple unpacking raises and the surrounding handler returns
`None`; when `" at "` does not occur the fallback formats are tried
directly. -/
def parse_macos_date (s : String) : Option DateTime :=
  if s == "" then none
  else
    let cs := s.toList
    let cleaned := stripWeekday cs
    let atSep := " at ".toList
    if seqContains atSep cleaned then
      match splitFirst atSep cleaned with
      | none => none
      | some (datePart, timePart) =>
        if seqContains atSep timePart then none
        else
          match
            (match matchDateMdY fullMonths datePart with
             | some ymd => some ymd
             | none => matchDateMdY abbrMonths datePart) with
          | none => none
          | some (y, m, d) =>
            match matchTimeHMS timePart with
            | some (h, mi, se) => some ⟨y, m, d, h, mi, se⟩
            | none =>
              match matchTimeIMSp timePart with
              | some (h, mi, se) => some ⟨y, m, d, h, mi, se⟩
              | none => fallbackFormats cs
    else fallbackFormats cs

/-! ## Input note records

One JSON object per note, as consumed by `NotesDatabase.import_note`.
`none` models an absent key (`dict.get` default applies); the per-field
defaults are applied inside the import, exactly where the Python applies
them. -/

/-- An entry of `extracted_data.images`: a bare filename string or an object
with optional `filename`, `path`, `format`, `size` keys. -/
inductive ImageEntry where
  | str (filename : String)
  | obj (filename : Option String) (path : Option String)
        (format : Option String) (size : Option Int)
deriving DecidableEq, Repr

/-- An entry of `analysis.tasks` / `analysis.ideas` / `analysis.projects`:
a bare string or an object with an optional text field (`text` for tasks and
ideas, `name` for projects). -/
inductive TextEntry where
  | str (s : String)
  | obj (text : Option String)
deriving DecidableEq, Repr

/-- The `extracted_data` sub-object. -/
structure ExtractedData where
  links : Option (List String)
  images : Option (List ImageEntry)
deriving DecidableEq, Repr

/-- The `analysis` sub-object.  A `NoteRecord.analysis` of `none` models an
absent key or an empty dict (both are falsy in `if analysis:`); `some`
models a non-empty analysis payload. -/
structure NoteAnalysis where
  summary : Option String
  plain_text : Option String
  tasks : Option (List TextEntry)
  ideas : Option (List TextEntry)
  projects : Option (List TextEntry)
  links_categorized : Option (List (String × List String))
deriving DecidableEq, Repr

/-- One input note record. -/
structure NoteRecord where
  note_id : Option String
  original_index : Option Int
  title : Option String
  content : Option String
  content_cleaned : Option String
  folder : Option String
  account : Option String
  id : Option String
  created : Option String
  modified : Option String
  status : Option String
  processed : Option Bool
  primary_category : Option String
  categories : Option (List String)
  extracted_data : Option ExtractedData
  analysis : Option NoteAnalysis
deriving DecidableEq, Repr

/-! ## Relational store

One structure field per table of `create_schema`, each a list of rows in
insertion order.  Autoincrement ids and `CURRENT_TIMESTAMP` columns are
omitted: no code under consideration reads them. -/

/-- A row of `notes`. -/
structure NoteRow where
  note_id : String
  original_index : Int
  title : String
  content : String
  content_cleaned : String
  plain_text : String
  folder : String
  account : String
  coredata_id : Option String
  created_raw : String
  created_datetime : Option DateTime
  modified_raw : String
  modified_datetime : Option DateTime
  status : String
  processed : Bool
  primary_category : Option String
  content_length : Nat
deriving DecidableEq, Repr

/-- A row of `extracted_links`. -/
structure LinkRow where
  note_id : String
  url : String
  link_type : Option String
deriving DecidableEq, Repr

/-- A row of `extracted_images`. -/
structure ImageRow where
  note_id : String
  filename : String
  relative_path : String
  image_format : String
  size_bytes : Int
  extraction_order : Nat
deriving DecidableEq, Repr

/-- A row of `note_categories`. -/
structure CategoryRow where
  note_id : String
  category : String
deriving DecidableEq, Repr

/-- A row of `analysis`. -/
structure AnalysisRow where
  note_id : String
  summary : String
  plain_text_sample : String
deriving DecidableEq, Repr

/-- A row of `extracted_tasks` (priority, completed, due date are never
populated by the importer and default in the schema). -/
structure TaskRow where
  note_id : String
  task_text : String
deriving DecidableEq, Repr

/-- A row of `extracted_ideas`. -/
structure IdeaRow where
  note_id : String
  idea_text : String
deriving DecidableEq, Repr

/-- A row of `extracted_projects`. -/
structure ProjectRow where
  note_id : String
  project_name : String
deriving DecidableEq, Repr

/-- The relational store: the seven entity tables of the schema. -/
structure NotesDB where
  notes : List NoteRow
  links : List LinkRow
  images : List ImageRow
  categories : List CategoryRow
  analyses : List AnalysisRow
  tasks : List TaskRow
  ideas : List IdeaRow
  projects : List ProjectRow
deriving DecidableEq, Repr

/-- The freshly created (empty) store. -/
def emptyDB : NotesDB := ⟨[], [], [], [], [], [], [], []⟩

/-- The run statistics object initialised in `NotesDatabase.__init__`. -/
structure RunStats where
  notes_imported : Nat
  links_imported : Nat
  images_imported : Nat
  categories_imported : Nat
  tasks_imported : Nat
  ideas_imported : Nat
  projects_imported : Nat
  errors : List String
deriving DecidableEq, Repr

/-- `self.stats` as initialised in `__init__`: all counters zero, no
errors. -/
def initStats : RunStats := ⟨0, 0, 0, 0, 0, 0, 0, []⟩

/-- Append an error message to the run's error log. -/
def addError (st : RunStats) (msg : String) : RunStats :=
  { st with errors := st.errors ++ [msg] }

/-! ## Schema constraints

`create_schema` declares, on top of the column lists above:
`notes.note_id` PRIMARY KEY, `notes.coredata_id` UNIQUE,
`UNIQUE(note_id, url)` on `extracted_links`,
`UNIQUE(note_id, filename)` on `extracted_images`,
`UNIQUE(note_id, category)` on `note_categories`,
`analysis.note_id` UNIQUE, and a foreign key `ON DELETE CASCADE` from every
child table to `notes`.  `connect` runs `PRAGMA foreign_keys = ON`. -/

/-- SQLite `ON DELETE` action of a foreign key. -/
inductive FKAction where
  | cascade
  | noAction
deriving DecidableEq, Repr

/-- `extracted_links` declares `ON DELETE CASCADE` (create_schema). -/
def extracted_links_onDelete : FKAction := .cascade

/-- `extracted_images` declares `ON DELETE CASCADE`. -/
def extracted_images_onDelete : FKAction := .cascade

/-- `analysis` declares `ON DELETE CASCADE`. -/
def analysis_onDelete : FKAction := .cascade

/-- `extracted_tasks` declares `ON DELETE CASCADE`. -/
def extracted_tasks_onDelete : FKAction := .cascade

/-- `extracted_ideas` declares `ON DELETE CASCADE`. -/
def extracted_ideas_onDelete : FKAction := .cascade

/-- `extracted_projects` declares `ON DELETE CASCADE`. -/
def extracted_projects_onDelete : FKAction := .cascade

/-- `note_categories` declares `ON DELETE CASCADE`. -/
def note_categories_onDelete : FKAction := .cascade

/-- `NotesDatabase.connect` executes `PRAGMA foreign_keys = ON`, so
foreign-key enforcement is on for the connection lifetime. -/
def connect_foreign_keys : Bool := true

/-- Two SQLite values collide under a UNIQUE constraint only when both are
non-NULL and equal (NULLs never collide). -/
def uniqueClash (a b : Option String) : Bool :=
  match a, b with
  | some x, some y => x == y
  | _, _ => false

/-- Strict `INSERT` into `notes`: the error text of the IntegrityError raised
on a duplicate `note_id` (primary key) or a duplicate non-NULL
`coredata_id`; `none` when the insert succeeds. -/
def notesInsertError (db : NotesDB) (row : NoteRow) : Option String :=
  if db.notes.any (fun r => r.note_id == row.note_id) then
    some "UNIQUE constraint failed: notes.note_id"
  else if db.notes.any (fun r => uniqueClash r.coredata_id row.coredata_id) then
    some "UNIQUE constraint failed: notes.coredata_id"
  else none

/-- `INSERT OR IGNORE INTO extracted_links`: no-op when a row with the same
`(note_id, url)` exists. -/
def insertOrIgnoreLink (db : NotesDB) (row : LinkRow) : NotesDB :=
  if db.links.any (fun r => r.note_id == row.note_id && r.url == row.url) then db
  else { db with links := db.links ++ [row] }

/-- `INSERT OR IGNORE INTO extracted_images`: no-op when a row with the same
`(note_id, filename)` exists. -/
def insertOrIgnoreImage (db : NotesDB) (row : ImageRow) : NotesDB :=
  if db.images.any (fun r => r.note_id == row.note_id && r.filename == row.filename) then db
  else { db with images := db.images ++ [row] }

/-- `INSERT OR IGNORE INTO note_categories`: no-op when a row with the same
`(note_id, category)` exists. -/
def insertOrIgnoreCategory (db : NotesDB) (row : CategoryRow) : NotesDB :=
  if db.categories.any (fun r => r.note_id == row.note_id && r.category == row.category) then db
  else { db with categories := db.categories ++ [row] }

/-- `INSERT OR IGNORE INTO analysis`: no-op when a row with the same
`note_id` exists (the UNIQUE 1:1 key). -/
def insertOrIgnoreAnalysis (db : NotesDB) (row : AnalysisRow) : NotesDB :=
  if db.analyses.any (fun r => r.note_id == row.note_id) then db
  else { db with analyses := db.analyses ++ [row] }

/-! ## The per-note import (`NotesDatabase.import_note`)

The Python body is split into named stages, one per loop, in source order:
Note row, flat links, categorized links, images, categories, analysis row,
tasks, ideas, projects.  Each stage threads the pair (store, statistics). -/

/-- The `notes` row built and bound to the strict INSERT of `import_note`,
given the external HTML-to-text collaborator `h2t`. -/
def noteRowFor (h2t : String → String) (nd : NoteRecord) (nid : String) : NoteRow :=
  let content := nd.content.getD ""
  let plain := h2t content
  { note_id := nid
    original_index := nd.original_index.getD 0
    title := nd.title.getD "Untitled"
    content := content
    content_cleaned := nd.content_cleaned.getD content
    plain_text := plain
    folder := nd.folder.getD "Notes"
    account := nd.account.getD "Unknown"
    coredata_id := some (nd.id.getD "")
    created_raw := nd.created.getD ""
    created_datetime := parse_macos_date (nd.created.getD "")
    modified_raw := nd.modified.getD ""
    modified_datetime := parse_macos_date (nd.modified.getD "")
    status := nd.status.getD "pending"
    processed := nd.processed.getD false
    primary_category := nd.primary_category
    content_length := plain.length }

/-- The flat `extracted_data.links` list of a record (`.get` defaults). -/
def flatLinksOf (nd : NoteRecord) : List String :=
  ((nd.extracted_data.getD ⟨none, none⟩).links).getD []

/-- The `analysis.links_categorized` mapping of a record. -/
def categorizedLinksOf (nd : NoteRecord) : List (String × List String) :=
  match nd.analysis with
  | none => []
  | some a => a.links_categorized.getD []

/-- The `extracted_data.images` list of a record. -/
def imagesOf (nd : NoteRecord) : List ImageEntry :=
  ((nd.extracted_data.getD ⟨none, none⟩).images).getD []

/-- The `categories` list of a record. -/
def categoriesOf (nd : NoteRecord) : List String :=
  nd.categories.getD []

/-- Stage: `for link in links` — untyped link rows, counter bumped once per
entry whether or not the OR IGNORE insert was a no-op. -/
def importFlatLinks (nid : String) : List String → NotesDB × RunStats → NotesDB × RunStats
  | [], s => s
  | u :: us, (db, st) =>
    importFlatLinks nid us
      (insertOrIgnoreLink db ⟨nid, u, none⟩,
       { st with links_imported := st.links_imported + 1 })

/-- Stage: inner loop `for link in link_list` of the categorized-links stage,
for one category label. -/
def importTypedLinkList (nid ty : String) : List String → NotesDB × RunStats → NotesDB × RunStats
  | [], s => s
  | u :: us, (db, st) =>
    importTypedLinkList nid ty us
      (insertOrIgnoreLink db ⟨nid, u, some ty⟩,
       { st with links_imported := st.links_imported + 1 })

/-- Stage: `for link_type, link_list in links_categorized.items()`. -/
def importTypedLinks (nid : String) : List (String × List String) → NotesDB × RunStats → NotesDB × RunStats
  | [], s => s
  | (ty, us) :: rest, s => importTypedLinks nid rest (importTypedLinkList nid ty us s)

/-- The image row built for one entry of `extracted_data.images` at 1-based
position `idx` (`enumerate(images, 1)`). -/
def imageRowFor (nid : String) (idx : Nat) (e : ImageEntry) : ImageRow :=
  match e with
  | .str fn => ⟨nid, fn, "images/" ++ fn, "", 0, idx⟩
  | .obj fn path fmt size =>
    let filename := fn.getD ""
    ⟨nid, filename, path.getD ("images/" ++ filename), fmt.getD "", size.getD 0, idx⟩

/-- The filename an image entry resolves to (the dedup key of the OR IGNORE
insert). -/
def imageFilename (e : ImageEntry) : String :=
  match e with
  | .str fn => fn
  | .obj fn _ _ _ => fn.getD ""

/-- Stage: `for idx, image in enumerate(images, 1)` starting at index `i`. -/
def importImagesFrom (nid : String) (i : Nat) : List ImageEntry → NotesDB × RunStats → NotesDB × RunStats
  | [], s => s
  | e :: es, (db, st) =>
    importImagesFrom nid (i + 1) es
      (insertOrIgnoreImage db (imageRowFor nid i e),
       { st with images_imported := st.images_imported + 1 })

/-- Stage: the image loop, 1-based enumeration. -/
def importImages (nid : String) (es : List ImageEntry) (s : NotesDB × RunStats) :
    NotesDB × RunStats :=
  importImagesFrom nid 1 es s

/-- Stage: `for category in categories`. -/
def importCategories (nid : String) : List String → NotesDB × RunStats → NotesDB × RunStats
  | [], s => s
  | c :: cs, (db, st) =>
    importCategories nid cs
      (insertOrIgnoreCategory db ⟨nid, c⟩,
       { st with categories_imported := st.categories_imported + 1 })

/-- The text a task/idea entry resolves to (`task.get('text', '')` for
objects). -/
def entryText (e : TextEntry) : String :=
  match e with
  | .str s => s
  | .obj t => t.getD ""

/-- Stage: `for task in tasks` — plain INSERT, always appends. -/
def importTasks (nid : String) : List TextEntry → NotesDB × RunStats → NotesDB × RunStats
  | [], s => s
  | e :: es, (db, st) =>
    importTasks nid es
      ({ db with tasks := db.tasks ++ [⟨nid, entryText e⟩] },
       { st with tasks_imported := st.tasks_imported + 1 })

/-- Stage: `for idea in ideas` — plain INSERT, always appends. -/
def importIdeas (nid : String) : List TextEntry → NotesDB × RunStats → NotesDB × RunStats
  | [], s => s
  | e :: es, (db, st) =>
    importIdeas nid es
      ({ db with ideas := db.ideas ++ [⟨nid, entryText e⟩] },
       { st with ideas_imported := st.ideas_imported + 1 })

/-- Stage: `for project in projects` — plain INSERT, always appends
(`project.get('name', '')` for objects). -/
def importProjects (nid : String) : List TextEntry → NotesDB × RunStats → NotesDB × RunStats
  | [], s => s
  | e :: es, (db, st) =>
    importProjects nid es
      ({ db with projects := db.projects ++ [⟨nid, entryText e⟩] },
       { st with projects_imported := st.projects_imported + 1 })

/-- Python string slicing `s[:1000]`: the first `n` characters.  (Defined via
`List.take` on the character list so that evaluation is structural in the
string's length.) -/
def pyStrTake (s : String) (n : Nat) : String := ⟨s.data.take n⟩

/-- Stage: `if analysis:` — the conditional Analysis row (inserted only when
the summary or the 1000-character plain-text sample is non-empty), then the
task/idea/project loops, which run whenever the payload is present. -/
def importAnalysisStage (nid : String) (oa : Option NoteAnalysis) (s : NotesDB × RunStats) :
    NotesDB × RunStats :=
  match oa with
  | none => s
  | some a =>
    let (db, st) := s
    let summary := a.summary.getD ""
    let sample := pyStrTake (a.plain_text.getD "") 1000
    let db :=
      if summary ≠ "" ∨ sample ≠ "" then
        insertOrIgnoreAnalysis db ⟨nid, summary, sample⟩
      else db
    let s := importTasks nid (a.tasks.getD []) (db, st)
    let s := importIdeas nid (a.ideas.getD []) s
    importProjects nid (a.projects.getD []) s

/-- `NotesDatabase.import_note`.  A record without a truthy `note_id` is
recorded and skipped; a strict-insert failure on the Note row is caught by
the surrounding handler, which records a per-note error and skips all child
stages; otherwise the Note row is appended, the counter bumped, and the child
stages run in source order. -/
def importNote (h2t : String → String) (s : NotesDB × RunStats) (nd : NoteRecord) :
    NotesDB × RunStats :=
  let (db, st) := s
  match nd.note_id with
  | none => (db, addError st "Missing note_id in note data")
  | some nid =>
    if nid = "" then (db, addError st "Missing note_id in note data")
    else
      let row := noteRowFor h2t nd nid
      match notesInsertError db row with
      | some msg => (db, addError st ("Failed to import note " ++ nid ++ ": " ++ msg))
      | none =>
        let db := { db with notes := db.notes ++ [row] }
        let st := { st with notes_imported := st.notes_imported + 1 }
        let s := importFlatLinks nid (flatLinksOf nd) (db, st)
        let s := importTypedLinks nid (categorizedLinksOf nd) s
        let s := importImages nid (imagesOf nd) s
        let s := importCategories nid (categoriesOf nd) s
        importAnalysisStage nid nd.analysis s

/-- The main import loop of `main()`: fold `import_note` over the note
records in order. -/
def importRun (h2t : String → String) : NotesDB × RunStats → List NoteRecord → NotesDB × RunStats
  | s, [] => s
  | s, nd :: rest => importRun h2t (importNote h2t s nd) rest

/-! ## Deleting a note under the declared foreign keys -/

/-- Apply one child table's `ON DELETE` action when the parent row with key
`nid` is deleted: with enforcement on and CASCADE, referencing rows are
removed; with enforcement off, rows are left in place (orphaned). -/
def applyOnDelete (act : FKAction) (fkOn : Bool) (refs : α → String) (nid : String)
    (rows : List α) : List α :=
  if fkOn && act == FKAction.cascade then rows.filter (fun r => refs r != nid) else rows

/-- `DELETE FROM notes WHERE note_id = nid` under SQLite semantics: with
enforcement on and a `NO ACTION` child holding a referencing row the delete
fails (`none`); otherwise the note row goes and each child table follows its
declared `ON DELETE` action. -/
def deleteNote (fkOn : Bool) (db : NotesDB) (nid : String) : Option NotesDB :=
  let blocked (act : FKAction) (hasRef : Bool) : Bool :=
    fkOn && act == FKAction.noAction && hasRef
  if blocked extracted_links_onDelete (db.links.any (fun r => r.note_id == nid)) ||
     blocked extracted_images_onDelete (db.images.any (fun r => r.note_id == nid)) ||
     blocked note_categories_onDelete (db.categories.any (fun r => r.note_id == nid)) ||
     blocked analysis_onDelete (db.analyses.any (fun r => r.note_id == nid)) ||
     blocked extracted_tasks_onDelete (db.tasks.any (fun r => r.note_id == nid)) ||
     blocked extracted_ideas_onDelete (db.ideas.any (fun r => r.note_id == nid)) ||
     blocked extracted_projects_onDelete (db.projects.any (fun r => r.note_id == nid)) then
    none
  else
    some
      { notes := db.notes.filter (fun r => r.note_id != nid)
        links := applyOnDelete extracted_links_onDelete fkOn LinkRow.note_id nid db.links
        images := applyOnDelete extracted_images_onDelete fkOn ImageRow.note_id nid db.images
        categories := applyOnDelete note_categories_onDelete fkOn CategoryRow.note_id nid db.categories
        analyses := applyOnDelete analysis_onDelete fkOn AnalysisRow.note_id nid db.analyses
        tasks := applyOnDelete extracted_tasks_onDelete fkOn TaskRow.note_id nid db.tasks
        ideas := applyOnDelete extracted_ideas_onDelete fkOn IdeaRow.note_id nid db.ideas
        projects := applyOnDelete extracted_projects_onDelete fkOn ProjectRow.note_id nid db.projects }

/-! ## The date-range query of `generate_statistics` -/

/-- One accumulation step of SQL `MIN` over a nullable DATETIME column:
NULL inputs are skipped. -/
def sqlMinStep (acc : Option DateTime) (x : Option DateTime) : Option DateTime :=
  match x with
  | none => acc
  | some d =>
    match acc with
    | none => some d
    | some m => some (if dtLe d m then d else m)

/-- One accumulation step of SQL `MAX`. -/
def sqlMaxStep (acc : Option DateTime) (x : Option DateTime) : Option DateTime :=
  match x with
  | none => acc
  | some d =>
    match acc with
    | none => some d
    | some m => some (if dtLe d m then m else d)

/-- SQL `MIN` aggregate over a nullable DATETIME column. -/
def sqlMin (xs : List (Option DateTime)) : Option DateTime := xs.foldl sqlMinStep none

/-- SQL `MAX` aggregate over a nullable DATETIME column. -/
def sqlMax (xs : List (Option DateTime)) : Option DateTime := xs.foldl sqlMaxStep none

/-- The `stats['date_ranges']` object. -/
structure DateRanges where
  earliest_created : Option DateTime
  latest_created : Option DateTime
  earliest_modified : Option DateTime
  latest_modified : Option DateTime
deriving DecidableEq, Repr

/-- The date-range query of `generate_statistics`:
`SELECT MIN(created_datetime), MAX(created_datetime), MIN(modified_datetime),
MAX(modified_datetime) FROM notes WHERE created_datetime IS NOT NULL` —
note that the single WHERE clause restricts all four aggregates to the rows
whose `created_datetime` parsed. -/
def dateRanges (db : NotesDB) : DateRanges :=
  let rows := db.notes.filter (fun r => r.created_datetime.isSome)
  { earliest_created := sqlMin (rows.map (fun r => r.created_datetime))
    latest_created := sqlMax (rows.map (fun r => r.created_datetime))
    earliest_modified := sqlMin (rows.map (fun r => r.modified_datetime))
    latest_modified := sqlMax (rows.map (fun r => r.modified_datetime)) }

/-- Modelled from the spec (for comparison with `dateRanges`): the
earliest/latest modified timestamps computed "over exactly the notes whose
modified date parsed successfully", as claim C2 words it. -/
def dateRangesModifiedClaim (db : NotesDB) : Option DateTime × Option DateTime :=
  let rows := db.notes.filter (fun r => r.modified_datetime.isSome)
  (sqlMin (rows.map (fun r => r.modified_datetime)),
   sqlMax (rows.map (fun r => r.modified_datetime)))

/-! ## Shape lemmas for the import stages

Each stage only appends to its own table and bumps its own counter; the
lemmas make this explicit together with the bounds relating rows appended to
counter increments. -/

lemma importFlatLinks_shape (nid : String) :
    ∀ (us : List String) (db : NotesDB) (st : RunStats),
      ∃ E : List LinkRow,
        importFlatLinks nid us (db, st) =
          ({ db with links := db.links ++ E },
           { st with links_imported := st.links_imported + us.length }) ∧
        E.length ≤ us.length := by
  intro us
  induction us with
  | nil =>
    intro db st
    exact ⟨[], by simp [importFlatLinks], by simp⟩
  | cons u us ih =>
    intro db st
    show ∃ E, importFlatLinks nid us
        (insertOrIgnoreLink db ⟨nid, u, none⟩,
         { st with links_imported := st.links_imported + 1 }) = _ ∧ _
    by_cases h : db.links.any (fun r => r.note_id == nid && r.url == u)
    · have hins : insertOrIgnoreLink db ⟨nid, u, none⟩ = db := by
        simp only [insertOrIgnoreLink]
        rw [if_pos h]
      rw [hins]
      rcases ih db { st with links_imported := st.links_imported + 1 } with ⟨E, hE, hlen⟩
      refine ⟨E, ?_, Nat.le_succ_of_le hlen⟩
      rw [hE]
      have harith : st.links_imported + 1 + us.length = st.links_imported + (us.length + 1) := by
        omega
      simp [harith]
    · have hins : insertOrIgnoreLink db ⟨nid, u, none⟩ =
          { db with links := db.links ++ [⟨nid, u, none⟩] } := by
        simp only [insertOrIgnoreLink]
        rw [if_neg h]
      rw [hins]
      rcases ih { db with links := db.links ++ [⟨nid, u, none⟩] }
          { st with links_imported := st.links_imported + 1 } with ⟨E, hE, hlen⟩
      refine ⟨⟨nid, u, none⟩ :: E, ?_, by simpa using hlen⟩
      rw [hE]
      have harith : st.links_imported + 1 + us.length = st.links_imported + (us.length + 1) := by
        omega
      simp [harith]

lemma importTypedLinkList_shape (nid ty : String) :
    ∀ (us : List String) (db : NotesDB) (st : RunStats),
      ∃ E : List LinkRow,
        importTypedLinkList nid ty us (db, st) =
          ({ db with links := db.links ++ E },
           { st with links_imported := st.links_imported + us.length }) ∧
        E.length ≤ us.length := by
  intro us
  induction us with
  | nil =>
    intro db st
    exact ⟨[], by simp [importTypedLinkList], by simp⟩
  | cons u us ih =>
    intro db st
    show ∃ E, importTypedLinkList nid ty us
        (insertOrIgnoreLink db ⟨nid, u, some ty⟩,
         { st with links_imported := st.links_imported + 1 }) = _ ∧ _
    by_cases h : db.links.any (fun r => r.note_id == nid && r.url == u)
    · have hins : insertOrIgnoreLink db ⟨nid, u, some ty⟩ = db := by
        simp only [insertOrIgnoreLink]
        rw [if_pos h]
      rw [hins]
      rcases ih db { st with links_imported := st.links_imported + 1 } with ⟨E, hE, hlen⟩
      refine ⟨E, ?_, Nat.le_succ_of_le hlen⟩
      rw [hE]
      have harith : st.links_imported + 1 + us.length = st.links_imported + (us.length + 1) := by
        omega
      simp [harith]
    · have hins : insertOrIgnoreLink db ⟨nid, u, some ty⟩ =
          { db with links := db.links ++ [⟨nid, u, some ty⟩] } := by
        simp only [insertOrIgnoreLink]
        rw [if_neg h]
      rw [hins]
      rcases ih { db with links := db.links ++ [⟨nid, u, some ty⟩] }
          { st with links_imported := st.links_imported + 1 } with ⟨E, hE, hlen⟩
      refine ⟨⟨nid, u, some ty⟩ :: E, ?_, by simpa using hlen⟩
      rw [hE]
      have harith : st.links_imported + 1 + us.length = st.links_imported + (us.length + 1) := by
        omega
      simp [harith]

/-- Total number of URLs in a categorized-links mapping. -/
def typedCount (cats : List (String × List String)) : Nat :=
  (cats.map (fun p => p.2.length)).sum

lemma importTypedLinks_shape (nid : String) :
    ∀ (cats : List (String × List String)) (db : NotesDB) (st : RunStats),
      ∃ E : List LinkRow,
        importTypedLinks nid cats (db, st) =
          ({ db with links := db.links ++ E },
           { st with links_imported := st.links_imported + typedCount cats }) ∧
        E.length ≤ typedCount cats := by
  intro cats
  induction cats with
  | nil =>
    intro db st
    exact ⟨[], by simp [importTypedLinks, typedCount], by simp⟩
  | cons p cats ih =>
    intro db st
    show ∃ E, importTypedLinks nid cats (importTypedLinkList nid p.1 p.2 (db, st)) = _ ∧ _
    rcases importTypedLinkList_shape nid p.1 p.2 db st with ⟨E1, hE1, hlen1⟩
    rw [hE1]
    rcases ih { db with links := db.links ++ E1 }
        { st with links_imported := st.links_imported + p.2.length } with ⟨E2, hE2, hlen2⟩
    refine ⟨E1 ++ E2, ?_, ?_⟩
    · rw [hE2]
      have harith : st.links_imported + p.2.length + typedCount cats =
          st.links_imported + typedCount (p :: cats) := by
        simp [typedCount]
        omega
      simp [harith]
    · have : typedCount (p :: cats) = p.2.length + typedCount cats := by
        simp [typedCount]
      rw [this]
      simpa using Nat.add_le_add hlen1 hlen2

lemma importImagesFrom_shape (nid : String) :
    ∀ (es : List ImageEntry) (i : Nat) (db : NotesDB) (st : RunStats),
      ∃ E : List ImageRow,
        importImagesFrom nid i es (db, st) =
          ({ db with images := db.images ++ E },
           { st with images_imported := st.images_imported + es.length }) ∧
        E.length ≤ es.length := by
  intro es
  induction es with
  | nil =>
    intro i db st
    exact ⟨[], by simp [importImagesFrom], by simp⟩
  | cons e es ih =>
    intro i db st
    show ∃ E, importImagesFrom nid (i + 1) es
        (insertOrIgnoreImage db (imageRowFor nid i e),
         { st with images_imported := st.images_imported + 1 }) = _ ∧ _
    by_cases h : db.images.any (fun r =>
        r.note_id == (imageRowFor nid i e).note_id &&
        r.filename == (imageRowFor nid i e).filename)
    · have hins : insertOrIgnoreImage db (imageRowFor nid i e) = db := by
        simp only [insertOrIgnoreImage]
        rw [if_pos h]
      rw [hins]
      rcases ih (i + 1) db { st with images_imported := st.images_imported + 1 } with
        ⟨E, hE, hlen⟩
      refine ⟨E, ?_, Nat.le_succ_of_le hlen⟩
      rw [hE]
      have harith : st.images_imported + 1 + es.length = st.images_imported + (es.length + 1) := by
        omega
      simp [harith]
    · have hins : insertOrIgnoreImage db (imageRowFor nid i e) =
          { db with images := db.images ++ [imageRowFor nid i e] } := by
        simp only [insertOrIgnoreImage]
        rw [if_neg h]
      rw [hins]
      rcases ih (i + 1) { db with images := db.images ++ [imageRowFor nid i e] }
          { st with images_imported := st.images_imported + 1 } with ⟨E, hE, hlen⟩
      refine ⟨imageRowFor nid i e :: E, ?_, by simpa using hlen⟩
      rw [hE]
      have harith : st.images_imported + 1 + es.length = st.images_imported + (es.length + 1) := by
        omega
      simp [harith]

lemma importCategories_shape (nid : String) :
    ∀ (cs : List String) (db : NotesDB) (st : RunStats),
      ∃ E : List CategoryRow,
        importCategories nid cs (db, st) =
          ({ db with categories := db.categories ++ E },
           { st with categories_imported := st.categories_imported + cs.length }) ∧
        E.length ≤ cs.length := by
  intro cs
  induction cs with
  | nil =>
    intro db st
    exact ⟨[], by simp [importCategories], by simp⟩
  | cons c cs ih =>
    intro db st
    show ∃ E, importCategories nid cs
        (insertOrIgnoreCategory db ⟨nid, c⟩,
         { st with categories_imported := st.categories_imported + 1 }) = _ ∧ _
    by_cases h : db.categories.any (fun r => r.note_id == nid && r.category == c)
    · have hins : insertOrIgnoreCategory db ⟨nid, c⟩ = db := by
        simp only [insertOrIgnoreCategory]
        rw [if_pos h]
      rw [hins]
      rcases ih db { st with categories_imported := st.categories_imported + 1 } with
        ⟨E, hE, hlen⟩
      refine ⟨E, ?_, Nat.le_succ_of_le hlen⟩
      rw [hE]
      have harith : st.categories_imported + 1 + cs.length =
          st.categories_imported + (cs.length + 1) := by omega
      simp [harith]
    · have hins : insertOrIgnoreCategory db ⟨nid, c⟩ =
          { db with categories := db.categories ++ [⟨nid, c⟩] } := by
        simp only [insertOrIgnoreCategory]
        rw [if_neg h]
      rw [hins]
      rcases ih { db with categories := db.categories ++ [⟨nid, c⟩] }
          { st with categories_imported := st.categories_imported + 1 } with ⟨E, hE, hlen⟩
      refine ⟨⟨nid, c⟩ :: E, ?_, by simpa using hlen⟩
      rw [hE]
      have harith : st.categories_imported + 1 + cs.length =
          st.categories_imported + (cs.length + 1) := by omega
      simp [harith]

lemma importTasks_shape (nid : String) :
    ∀ (es : List TextEntry) (db : NotesDB) (st : RunStats),
      importTasks nid es (db, st) =
        ({ db with tasks := db.tasks ++ es.map (fun e => ⟨nid, entryText e⟩) },
         { st with tasks_imported := st.tasks_imported + es.length }) := by
  intro es
  induction es with
  | nil =>
    intro db st
    simp [importTasks]
  | cons e es ih =>
    intro db st
    show importTasks nid es
        ({ db with tasks := db.tasks ++ [⟨nid, entryText e⟩] },
         { st with tasks_imported := st.tasks_imported + 1 }) = _
    rw [ih]
    have harith : st.tasks_imported + 1 + es.length = st.tasks_imported + (es.length + 1) := by
      omega
    simp [harith]

lemma importIdeas_shape (nid : String) :
    ∀ (es : List TextEntry) (db : NotesDB) (st : RunStats),
      importIdeas nid es (db, st) =
        ({ db with ideas := db.ideas ++ es.map (fun e => ⟨nid, entryText e⟩) },
         { st with ideas_imported := st.ideas_imported + es.length }) := by
  intro es
  induction es with
  | nil =>
    intro db st
    simp [importIdeas]
  | cons e es ih =>
    intro db st
    show importIdeas nid es
        ({ db with ideas := db.ideas ++ [⟨nid, entryText e⟩] },
         { st with ideas_imported := st.ideas_imported + 1 }) = _
    rw [ih]
    have harith : st.ideas_imported + 1 + es.length = st.ideas_imported + (es.length + 1) := by
      omega
    simp [harith]

lemma importProjects_shape (nid : String) :
    ∀ (es : List TextEntry) (db : NotesDB) (st : RunStats),
      importProjects nid es (db, st) =
        ({ db with projects := db.projects ++ es.map (fun e => ⟨nid, entryText e⟩) },
         { st with projects_imported := st.projects_imported + es.length }) := by
  intro es
  induction es with
  | nil =>
    intro db st
    simp [importProjects]
  | cons e es ih =>
    intro db st
    show importProjects nid es
        ({ db with projects := db.projects ++ [⟨nid, entryText e⟩] },
         { st with projects_imported := st.projects_imported + 1 }) = _
    rw [ih]
    have harith : st.projects_imported + 1 + es.length = st.projects_imported + (es.length + 1) := by
      omega
    simp [harith]

/-- The task rows the analysis stage appends for a record. -/
def analysisTaskRows (nid : String) (oa : Option NoteAnalysis) : List TaskRow :=
  match oa with
  | none => []
  | some a => (a.tasks.getD []).map (fun e => ⟨nid, entryText e⟩)

/-- The idea rows the analysis stage appends for a record. -/
def analysisIdeaRows (nid : String) (oa : Option NoteAnalysis) : List IdeaRow :=
  match oa with
  | none => []
  | some a => (a.ideas.getD []).map (fun e => ⟨nid, entryText e⟩)

/-- The project rows the analysis stage appends for a record. -/
def analysisProjectRows (nid : String) (oa : Option NoteAnalysis) : List ProjectRow :=
  match oa with
  | none => []
  | some a => (a.projects.getD []).map (fun e => ⟨nid, entryText e⟩)

lemma importAnalysisStage_shape (nid : String) (oa : Option NoteAnalysis)
    (db : NotesDB) (st : RunStats) :
    ∃ A : List AnalysisRow,
      importAnalysisStage nid oa (db, st) =
        ({ db with analyses := db.analyses ++ A,
                   tasks := db.tasks ++ analysisTaskRows nid oa,
                   ideas := db.ideas ++ analysisIdeaRows nid oa,
                   projects := db.projects ++ analysisProjectRows nid oa },
         { st with tasks_imported := st.tasks_imported + (analysisTaskRows nid oa).length,
                   ideas_imported := st.ideas_imported + (analysisIdeaRows nid oa).length,
                   projects_imported :=
                     st.projects_imported + (analysisProjectRows nid oa).length }) ∧
      A.length ≤ 1 := by
  match oa with
  | none =>
    exact ⟨[], by simp [importAnalysisStage, analysisTaskRows, analysisIdeaRows,
                        analysisProjectRows], by simp⟩
  | some a =>
    have hrows : ∃ A : List AnalysisRow,
        (if (a.summary.getD "") ≠ "" ∨ (pyStrTake (a.plain_text.getD "") 1000) ≠ "" then
          insertOrIgnoreAnalysis db ⟨nid, a.summary.getD "", pyStrTake (a.plain_text.getD "") 1000⟩
         else db) = { db with analyses := db.analyses ++ A } ∧ A.length ≤ 1 := by
      by_cases hc : (a.summary.getD "") ≠ "" ∨ (pyStrTake (a.plain_text.getD "") 1000) ≠ ""
      · rw [if_pos hc]
        by_cases hdup : db.analyses.any (fun r => r.note_id == nid)
        · refine ⟨[], ?_, by simp⟩
          simp only [insertOrIgnoreAnalysis]
          rw [if_pos hdup]
          simp
        · refine ⟨[⟨nid, a.summary.getD "", pyStrTake (a.plain_text.getD "") 1000⟩], ?_, by simp⟩
          simp only [insertOrIgnoreAnalysis]
          rw [if_neg hdup]
      · rw [if_neg hc]
        exact ⟨[], by simp, by simp⟩
    rcases hrows with ⟨A, hA, hAlen⟩
    refine ⟨A, ?_, hAlen⟩
    show (importProjects nid (a.projects.getD [])
        (importIdeas nid (a.ideas.getD [])
          (importTasks nid (a.tasks.getD [])
            (_, st)))) = _
    rw [hA]
    rw [importTasks_shape, importIdeas_shape, importProjects_shape]
    simp [analysisTaskRows, analysisIdeaRows, analysisProjectRows]

/-! ## Case analysis of `import_note` -/

lemma importNote_noid (h2t : String → String) (db : NotesDB) (st : RunStats)
    (nd : NoteRecord) (hid : nd.note_id = none) :
    importNote h2t (db, st) nd = (db, addError st "Missing note_id in note data") := by
  simp [importNote, hid]

lemma importNote_emptyid (h2t : String → String) (db : NotesDB) (st : RunStats)
    (nd : NoteRecord) (hid : nd.note_id = some "") :
    importNote h2t (db, st) nd = (db, addError st "Missing note_id in note data") := by
  simp [importNote, hid]

lemma importNote_conflict (h2t : String → String) (db : NotesDB) (st : RunStats)
    (nd : NoteRecord) (nid msg : String) (hid : nd.note_id = some nid) (hne : nid ≠ "")
    (hbad : notesInsertError db (noteRowFor h2t nd nid) = some msg) :
    importNote h2t (db, st) nd =
      (db, addError st ("Failed to import note " ++ nid ++ ": " ++ msg)) := by
  simp [importNote, hid, hne, hbad]

lemma importNote_success_eq (h2t : String → String) (db : NotesDB) (st : RunStats)
    (nd : NoteRecord) (nid : String) (hid : nd.note_id = some nid) (hne : nid ≠ "")
    (hok : notesInsertError db (noteRowFor h2t nd nid) = none) :
    importNote h2t (db, st) nd =
      importAnalysisStage nid nd.analysis
        (importCategories nid (categoriesOf nd)
          (importImages nid (imagesOf nd)
            (importTypedLinks nid (categorizedLinksOf nd)
              (importFlatLinks nid (flatLinksOf nd)
                ({ db with notes := db.notes ++ [noteRowFor h2t nd nid] },
                 { st with notes_imported := st.notes_imported + 1 }))))) := by
  simp [importNote, hid, hne, hok]

/-- Composite shape of a successful per-note import: exactly one Note row is
appended, child rows are appended to their own tables (never removed or
rewritten), counters advance by the number of processed entries, and the
appended child rows never outnumber the processed entries. -/
lemma importNote_success_shape (h2t : String → String) (db : NotesDB) (st : RunStats)
    (nd : NoteRecord) (nid : String) (hid : nd.note_id = some nid) (hne : nid ≠ "")
    (hok : notesInsertError db (noteRowFor h2t nd nid) = none) :
    ∃ (L : List LinkRow) (Im : List ImageRow) (C : List CategoryRow) (A : List AnalysisRow),
      importNote h2t (db, st) nd =
        ({ db with notes := db.notes ++ [noteRowFor h2t nd nid],
                   links := db.links ++ L,
                   images := db.images ++ Im,
                   categories := db.categories ++ C,
                   analyses := db.analyses ++ A,
                   tasks := db.tasks ++ analysisTaskRows nid nd.analysis,
                   ideas := db.ideas ++ analysisIdeaRows nid nd.analysis,
                   projects := db.projects ++ analysisProjectRows nid nd.analysis },
         { st with notes_imported := st.notes_imported + 1,
                   links_imported := st.links_imported +
                     ((flatLinksOf nd).length + typedCount (categorizedLinksOf nd)),
                   images_imported := st.images_imported + (imagesOf nd).length,
                   categories_imported := st.categories_imported + (categoriesOf nd).length,
                   tasks_imported := st.tasks_imported + (analysisTaskRows nid nd.analysis).length,
                   ideas_imported := st.ideas_imported + (analysisIdeaRows nid nd.analysis).length,
                   projects_imported := st.projects_imported +
                     (analysisProjectRows nid nd.analysis).length }) ∧
      L.length ≤ (flatLinksOf nd).length + typedCount (categorizedLinksOf nd) ∧
      Im.length ≤ (imagesOf nd).length ∧
      C.length ≤ (categoriesOf nd).length ∧
      A.length ≤ 1 := by
  rw [importNote_success_eq h2t db st nd nid hid hne hok]
  rcases importFlatLinks_shape nid (flatLinksOf nd)
      { db with notes := db.notes ++ [noteRowFor h2t nd nid] }
      { st with notes_imported := st.notes_imported + 1 } with ⟨L1, hL1, hL1len⟩
  rw [hL1]
  rcases importTypedLinks_shape nid (categorizedLinksOf nd) _ _ with ⟨L2, hL2, hL2len⟩
  rw [hL2]
  show ∃ L Im C A, importAnalysisStage nid nd.analysis
      (importCategories nid (categoriesOf nd)
        (importImagesFrom nid 1 (imagesOf nd) (_, _))) = _ ∧ _
  rcases importImagesFrom_shape nid (imagesOf nd) 1 _ _ with ⟨Im, hIm, hImlen⟩
  rw [hIm]
  rcases importCategories_shape nid (categoriesOf nd) _ _ with ⟨C, hC, hClen⟩
  rw [hC]
  rcases importAnalysisStage_shape nid nd.analysis _ _ with ⟨A, hA, hAlen⟩
  rw [hA]
  refine ⟨L1 ++ L2, Im, C, A, ?_,
    by simpa using Nat.add_le_add hL1len hL2len, hImlen, hClen, hAlen⟩
  have harith : st.links_imported + (flatLinksOf nd).length + typedCount (categorizedLinksOf nd) =
      st.links_imported + ((flatLinksOf nd).length + typedCount (categorizedLinksOf nd)) := by
    omega
  simp [harith]

/-! ## Counters versus rows (claim C3) -/

/-- Relation between the run statistics and the store contents maintained by
every per-note import: the append-only counters (tasks/ideas/projects) match
their tables exactly, while the ignore-on-duplicate counters
(links/images/categories) are upper bounds on their tables, because the
counter is bumped even when the OR IGNORE insert was absorbed as a no-op. -/
def countsInv (s : NotesDB × RunStats) : Prop :=
  s.2.tasks_imported = s.1.tasks.length ∧
  s.2.ideas_imported = s.1.ideas.length ∧
  s.2.projects_imported = s.1.projects.length ∧
  s.1.links.length ≤ s.2.links_imported ∧
  s.1.images.length ≤ s.2.images_imported ∧
  s.1.categories.length ≤ s.2.categories_imported

lemma importNote_countsInv (h2t : String → String) (db : NotesDB) (st : RunStats)
    (nd : NoteRecord) (hinv : countsInv (db, st)) :
    countsInv (importNote h2t (db, st) nd) := by
  obtain ⟨h1, h2, h3, h4, h5, h6⟩ := hinv
  match hid : nd.note_id with
  | none =>
    rw [importNote_noid h2t db st nd hid]
    exact ⟨h1, h2, h3, h4, h5, h6⟩
  | some nid =>
    by_cases hne : nid = ""
    · subst hne
      rw [importNote_emptyid h2t db st nd hid]
      exact ⟨h1, h2, h3, h4, h5, h6⟩
    · match hce : notesInsertError db (noteRowFor h2t nd nid) with
      | some msg =>
        rw [importNote_conflict h2t db st nd nid msg hid hne hce]
        exact ⟨h1, h2, h3, h4, h5, h6⟩
      | none =>
        rcases importNote_success_shape h2t db st nd nid hid hne hce with
          ⟨L, Im, C, A, heq, hL, hIm, hC, hA⟩
        rw [heq]
        simp only [countsInv] at h1 h2 h3 h4 h5 h6 ⊢
        refine ⟨?_, ?_, ?_, ?_, ?_, ?_⟩ <;> simp at h1 h2 h3 h4 h5 h6 ⊢ <;> omega

lemma importRun_countsInv (h2t : String → String) :
    ∀ (notes : List NoteRecord) (s : NotesDB × RunStats),
      countsInv s → countsInv (importRun h2t s notes) := by
  intro notes
  induction notes with
  | nil => intro s h; exact h
  | cons nd rest ih =>
    intro s h
    show countsInv (importRun h2t (importNote h2t s nd) rest)
    exact ih _ (by
      obtain ⟨db, st⟩ := s
      exact importNote_countsInv h2t db st nd h)

/-! ## Records whose Note-row insert cannot succeed -/

lemma notesInsertError_none_iff (db : NotesDB) (row : NoteRow) :
    notesInsertError db row = none ↔
      db.notes.any (fun r => r.note_id == row.note_id) = false ∧
      db.notes.any (fun r => uniqueClash r.coredata_id row.coredata_id) = false := by
  unfold notesInsertError
  by_cases h1 : db.notes.any (fun r => r.note_id == row.note_id)
  · simp [h1]
  · by_cases h2 : db.notes.any (fun r => uniqueClash r.coredata_id row.coredata_id)
    · simp [h1, h2]
    · simp [h1, h2]

lemma notesInsertError_isSome_iff (db : NotesDB) (row : NoteRow) :
    (∃ msg, notesInsertError db row = some msg) ↔
      (db.notes.any (fun r => r.note_id == row.note_id) = true ∨
       db.notes.any (fun r => uniqueClash r.coredata_id row.coredata_id) = true) := by
  unfold notesInsertError
  by_cases h1 : db.notes.any (fun r => r.note_id == row.note_id)
  · simp [h1]
  · by_cases h2 : db.notes.any (fun r => uniqueClash r.coredata_id row.coredata_id)
    · simp [h1, h2]
    · simp [h1, h2]

/-- A record whose import cannot change the store: no truthy `note_id`, or
the strict Note-row insert collides with an existing row on the primary key
or on a non-NULL `coredata_id`. -/
def recordBlocked (db : NotesDB) (nd : NoteRecord) : Prop :=
  match nd.note_id with
  | none => True
  | some nid =>
    nid = "" ∨
    db.notes.any (fun r => r.note_id == nid) = true ∨
    db.notes.any (fun r => uniqueClash r.coredata_id (some (nd.id.getD ""))) = true

lemma noteRowFor_note_id (h2t : String → String) (nd : NoteRecord) (nid : String) :
    (noteRowFor h2t nd nid).note_id = nid := rfl

lemma noteRowFor_coredata_id (h2t : String → String) (nd : NoteRecord) (nid : String) :
    (noteRowFor h2t nd nid).coredata_id = some (nd.id.getD "") := rfl

lemma importNote_db_of_blocked (h2t : String → String) (db : NotesDB) (st : RunStats)
    (nd : NoteRecord) (hb : recordBlocked db nd) :
    (importNote h2t (db, st) nd).1 = db := by
  match hid : nd.note_id with
  | none => rw [importNote_noid h2t db st nd hid]
  | some nid =>
    rw [recordBlocked, hid] at hb
    rcases hb with hb | hb | hb
    · subst hb
      rw [importNote_emptyid h2t db st nd hid]
    · have : ∃ msg, notesInsertError db (noteRowFor h2t nd nid) = some msg := by
        rw [notesInsertError_isSome_iff]
        left
        rw [noteRowFor_note_id]
        exact hb
      by_cases hne : nid = ""
      · subst hne
        rw [importNote_emptyid h2t db st nd hid]
      · rcases this with ⟨msg, hmsg⟩
        rw [importNote_conflict h2t db st nd nid msg hid hne hmsg]
    · have : ∃ msg, notesInsertError db (noteRowFor h2t nd nid) = some msg := by
        rw [notesInsertError_isSome_iff]
        right
        rw [noteRowFor_coredata_id]
        exact hb
      by_cases hne : nid = ""
      · subst hne
        rw [importNote_emptyid h2t db st nd hid]
      · rcases this with ⟨msg, hmsg⟩
        rw [importNote_conflict h2t db st nd nid msg hid hne hmsg]

lemma importNote_notes_mono (h2t : String → String) (db : NotesDB) (st : RunStats)
    (nd : NoteRecord) : db.notes ⊆ (importNote h2t (db, st) nd).1.notes := by
  match hid : nd.note_id with
  | none =>
    rw [importNote_noid h2t db st nd hid]
    exact fun _ h => h
  | some nid =>
    by_cases hne : nid = ""
    · subst hne
      rw [importNote_emptyid h2t db st nd hid]
      exact fun _ h => h
    · match hce : notesInsertError db (noteRowFor h2t nd nid) with
      | some msg =>
        rw [importNote_conflict h2t db st nd nid msg hid hne hce]
        exact fun _ h => h
      | none =>
        rcases importNote_success_shape h2t db st nd nid hid hne hce with
          ⟨L, Im, C, A, heq, _, _, _, _⟩
        rw [heq]
        exact List.subset_append_left _ _

lemma importRun_notes_mono (h2t : String → String) :
    ∀ (notes : List NoteRecord) (s : NotesDB × RunStats),
      s.1.notes ⊆ (importRun h2t s notes).1.notes := by
  intro notes
  induction notes with
  | nil => intro s; exact fun _ h => h
  | cons nd rest ih =>
    intro s
    obtain ⟨db, st⟩ := s
    exact fun r hr =>
      ih (importNote h2t (db, st) nd) (importNote_notes_mono h2t db st nd hr)

lemma importNote_post_blocked (h2t : String → String) (db : NotesDB) (st : RunStats)
    (nd : NoteRecord) (db2 : NotesDB)
    (hsub : (importNote h2t (db, st) nd).1.notes ⊆ db2.notes) :
    recordBlocked db2 nd := by
  match hid : nd.note_id with
  | none => rw [recordBlocked, hid]; trivial
  | some nid =>
    rw [recordBlocked, hid]
    by_cases hne : nid = ""
    · exact Or.inl hne
    · match hce : notesInsertError db (noteRowFor h2t nd nid) with
      | some msg =>
        rw [importNote_conflict h2t db st nd nid msg hid hne hce] at hsub
        have := (notesInsertError_isSome_iff db (noteRowFor h2t nd nid)).mp ⟨msg, hce⟩
        rcases this with hany | hany
        · refine Or.inr (Or.inl ?_)
          rw [List.any_eq_true] at hany ⊢
          rcases hany with ⟨r, hr, hp⟩
          exact ⟨r, hsub hr, hp⟩
        · refine Or.inr (Or.inr ?_)
          rw [List.any_eq_true] at hany ⊢
          rcases hany with ⟨r, hr, hp⟩
          rw [noteRowFor_coredata_id] at hp
          exact ⟨r, hsub hr, hp⟩
      | none =>
        rcases importNote_success_shape h2t db st nd nid hid hne hce with
          ⟨L, Im, C, A, heq, _, _, _, _⟩
        rw [heq] at hsub
        refine Or.inr (Or.inl ?_)
        rw [List.any_eq_true]
        refine ⟨noteRowFor h2t nd nid, ?_, by simp [noteRowFor_note_id]⟩
        exact hsub (by simp)

lemma importRun_post_blocked (h2t : String → String) :
    ∀ (notes : List NoteRecord) (s : NotesDB × RunStats) (db2 : NotesDB),
      (importRun h2t s notes).1.notes ⊆ db2.notes →
      ∀ nd ∈ notes, recordBlocked db2 nd := by
  intro notes
  induction notes with
  | nil => intro s db2 _ nd h; cases h
  | cons nd0 rest ih =>
    intro s db2 hsub nd hmem
    obtain ⟨db, st⟩ := s
    have hstep : (importNote h2t (db, st) nd0).1.notes ⊆ db2.notes :=
      fun r hr =>
        hsub (importRun_notes_mono h2t rest (importNote h2t (db, st) nd0) hr)
    rw [List.mem_cons] at hmem
    rcases hmem with rfl | hmem
    · exact importNote_post_blocked h2t db st nd db2 hstep
    · exact ih (importNote h2t (db, st) nd0) db2 hsub nd hmem

lemma importRun_db_of_all_blocked (h2t : String → String) :
    ∀ (notes : List NoteRecord) (db : NotesDB) (st : RunStats),
      (∀ nd ∈ notes, recordBlocked db nd) →
      (importRun h2t (db, st) notes).1 = db := by
  intro notes
  induction notes with
  | nil => intro db st _; rfl
  | cons nd0 rest ih =>
    intro db st hall
    have h1 : (importNote h2t (db, st) nd0).1 = db :=
      importNote_db_of_blocked h2t db st nd0 (hall nd0 (by simp))
    show (importRun h2t (importNote h2t (db, st) nd0) rest).1 = db
    have hpair : importRun h2t (importNote h2t (db, st) nd0) rest =
        importRun h2t (db, (importNote h2t (db, st) nd0).2) rest := by
      congr 1
      exact Prod.ext_iff.mpr ⟨h1, rfl⟩
    rw [hpair]
    exact ih db _ (fun nd hm => hall nd (by simp [hm]))

/-! ## The link rows stored for one `(note_id, url)` pair (claim C1) -/

/-- All link rows of the store keyed by the given `(note_id, url)` pair. -/
def linksFor (db : NotesDB) (nid u : String) : List LinkRow :=
  db.links.filter (fun r => r.note_id == nid && r.url == u)

lemma linksFor_insert (db : NotesDB) (row : LinkRow) (nid u : String) :
    linksFor (insertOrIgnoreLink db row) nid u =
      if row.note_id = nid ∧ row.url = u ∧ linksFor db nid u = [] then [row]
      else linksFor db nid u := by
  by_cases hdup : db.links.any (fun r => r.note_id == row.note_id && r.url == row.url)
  · have hins : insertOrIgnoreLink db row = db := by
      simp only [insertOrIgnoreLink]
      rw [if_pos hdup]
    rw [hins, if_neg]
    rintro ⟨hn, hu, hnil⟩
    rw [List.any_eq_true] at hdup
    rcases hdup with ⟨r, hr, hp⟩
    simp only [Bool.and_eq_true, beq_iff_eq] at hp
    have hmem : r ∈ linksFor db nid u := by
      simp only [linksFor, List.mem_filter]
      exact ⟨hr, by simp [hp.1, hp.2, hn, hu]⟩
    rw [hnil] at hmem
    cases hmem
  · have hins : insertOrIgnoreLink db row = { db with links := db.links ++ [row] } := by
      simp only [insertOrIgnoreLink]
      rw [if_neg hdup]
    rw [hins]
    by_cases hmatch : row.note_id = nid ∧ row.url = u
    · have hnil : db.links.filter (fun r => r.note_id == nid && r.url == u) = [] := by
        rw [List.filter_eq_nil_iff]
        intro r hr hp
        simp only [Bool.and_eq_true, beq_iff_eq] at hp
        refine hdup (List.any_eq_true.mpr ⟨r, hr, ?_⟩)
        simp only [Bool.and_eq_true, beq_iff_eq]
        exact ⟨hp.1.trans hmatch.1.symm, hp.2.trans hmatch.2.symm⟩
      rw [if_pos ⟨hmatch.1, hmatch.2, by simp only [linksFor]; exact hnil⟩]
      simp only [linksFor]
      show (db.links ++ [row]).filter _ = [row]
      rw [List.filter_append, hnil, List.nil_append]
      simp [List.filter, hmatch.1, hmatch.2]
    · rw [if_neg (fun hc => hmatch ⟨hc.1, hc.2.1⟩)]
      simp only [linksFor]
      show (db.links ++ [row]).filter _ = db.links.filter _
      rw [List.filter_append]
      have hone : [row].filter (fun r => r.note_id == nid && r.url == u) = [] := by
        have hp : (row.note_id == nid && row.url == u) = false := by
          cases hb : (row.note_id == nid && row.url == u) with
          | false => rfl
          | true =>
            exact absurd (by simpa [Bool.and_eq_true, beq_iff_eq] using hb) hmatch
        simp [List.filter, hp]
      rw [hone, List.append_nil]

lemma linksFor_importFlatLinks_preserved (nid : String) :
    ∀ (us : List String) (db : NotesDB) (st : RunStats) (qnid qu : String),
      linksFor db qnid qu ≠ [] →
      linksFor (importFlatLinks nid us (db, st)).1 qnid qu = linksFor db qnid qu := by
  intro us
  induction us with
  | nil => intro db st qnid qu _; rfl
  | cons v us ih =>
    intro db st qnid qu hne
    show linksFor (importFlatLinks nid us (insertOrIgnoreLink db ⟨nid, v, none⟩, _)).1 qnid qu = _
    have hstep : linksFor (insertOrIgnoreLink db ⟨nid, v, none⟩) qnid qu = linksFor db qnid qu := by
      rw [linksFor_insert]
      rw [if_neg]
      rintro ⟨_, _, hnil⟩
      exact hne hnil
    rw [ih _ _ qnid qu (by rw [hstep]; exact hne), hstep]

lemma linksFor_importTypedLinkList_preserved (nid ty : String) :
    ∀ (us : List String) (db : NotesDB) (st : RunStats) (qnid qu : String),
      linksFor db qnid qu ≠ [] →
      linksFor (importTypedLinkList nid ty us (db, st)).1 qnid qu = linksFor db qnid qu := by
  intro us
  induction us with
  | nil => intro db st qnid qu _; rfl
  | cons v us ih =>
    intro db st qnid qu hne
    show linksFor (importTypedLinkList nid ty us (insertOrIgnoreLink db ⟨nid, v, some ty⟩, _)).1 qnid qu = _
    have hstep : linksFor (insertOrIgnoreLink db ⟨nid, v, some ty⟩) qnid qu =
        linksFor db qnid qu := by
      rw [linksFor_insert]
      rw [if_neg]
      rintro ⟨_, _, hnil⟩
      exact hne hnil
    rw [ih _ _ qnid qu (by rw [hstep]; exact hne), hstep]

lemma linksFor_importTypedLinks_preserved (nid : String) :
    ∀ (cats : List (String × List String)) (db : NotesDB) (st : RunStats) (qnid qu : String),
      linksFor db qnid qu ≠ [] →
      linksFor (importTypedLinks nid cats (db, st)).1 qnid qu = linksFor db qnid qu := by
  intro cats
  induction cats with
  | nil => intro db st qnid qu _; rfl
  | cons p cats ih =>
    intro db st qnid qu hne
    show linksFor (importTypedLinks nid cats (importTypedLinkList nid p.1 p.2 (db, st))).1 qnid qu = _
    have hfst : importTypedLinkList nid p.1 p.2 (db, st) =
        ((importTypedLinkList nid p.1 p.2 (db, st)).1,
         (importTypedLinkList nid p.1 p.2 (db, st)).2) := rfl
    have hstep := linksFor_importTypedLinkList_preserved nid p.1 p.2 db st qnid qu hne
    rw [hfst]
    rw [ih _ _ qnid qu (by rw [hstep]; exact hne), hstep]

lemma linksFor_importFlatLinks_mem (nid u : String) :
    ∀ (us : List String) (db : NotesDB) (st : RunStats),
      u ∈ us → linksFor db nid u = [] →
      linksFor (importFlatLinks nid us (db, st)).1 nid u = [⟨nid, u, none⟩] := by
  intro us
  induction us with
  | nil => intro db st hmem; cases hmem
  | cons v us ih =>
    intro db st hmem hnil
    show linksFor (importFlatLinks nid us (insertOrIgnoreLink db ⟨nid, v, none⟩, _)).1 nid u = _
    by_cases hvu : v = u
    · subst hvu
      have hstep : linksFor (insertOrIgnoreLink db ⟨nid, v, none⟩) nid v = [⟨nid, v, none⟩] := by
        rw [linksFor_insert]
        rw [if_pos ⟨rfl, rfl, hnil⟩]
      rw [linksFor_importFlatLinks_preserved nid us _ _ nid v (by rw [hstep]; simp), hstep]
    · have hstep : linksFor (insertOrIgnoreLink db ⟨nid, v, none⟩) nid u = linksFor db nid u := by
        rw [linksFor_insert]
        rw [if_neg]
        rintro ⟨_, hu, _⟩
        exact hvu hu
      have hmem2 : u ∈ us := by
        rcases List.mem_cons.mp hmem with h | h
        · exact absurd h.symm hvu
        · exact h
      exact ih _ _ hmem2 (by rw [hstep]; exact hnil)

/-! ## The image row stored for one entry (claim C9) -/

lemma imageRowFor_note_id (nid : String) (i : Nat) (e : ImageEntry) :
    (imageRowFor nid i e).note_id = nid := by
  cases e <;> rfl

lemma imageRowFor_filename (nid : String) (i : Nat) (e : ImageEntry) :
    (imageRowFor nid i e).filename = imageFilename e := by
  cases e <;> rfl

lemma importImagesFrom_images_mono (nid : String) (i : Nat) (es : List ImageEntry)
    (db : NotesDB) (st : RunStats) :
    db.images ⊆ (importImagesFrom nid i es (db, st)).1.images := by
  rcases importImagesFrom_shape nid es i db st with ⟨E, hE, _⟩
  rw [hE]
  exact List.subset_append_left _ _

lemma importImagesFrom_mem (nid : String) :
    ∀ (es : List ImageEntry) (i : Nat) (db : NotesDB) (st : RunStats) (j : Nat) (fn : String),
      es.get? j = some (ImageEntry.str fn) →
      db.images.any (fun r => r.note_id == nid && r.filename == fn) = false →
      (es.take j).all (fun e => imageFilename e != fn) = true →
      (⟨nid, fn, "images/" ++ fn, "", 0, i + j⟩ : ImageRow) ∈
        (importImagesFrom nid i es (db, st)).1.images := by
  intro es
  induction es with
  | nil => intro i db st j fn hget _ _; cases j <;> cases hget
  | cons e es ih =>
    intro i db st j fn hget hfresh hall
    match j with
    | 0 =>
      have he : e = ImageEntry.str fn := by
        simpa using hget
      subst he
      have hrow : imageRowFor nid i (ImageEntry.str fn) =
          ⟨nid, fn, "images/" ++ fn, "", 0, i⟩ := rfl
      show (⟨nid, fn, "images/" ++ fn, "", 0, i + 0⟩ : ImageRow) ∈
        (importImagesFrom nid (i + 1) es
          (insertOrIgnoreImage db (imageRowFor nid i (ImageEntry.str fn)), _)).1.images
      have hins : insertOrIgnoreImage db (imageRowFor nid i (ImageEntry.str fn)) =
          { db with images := db.images ++ [⟨nid, fn, "images/" ++ fn, "", 0, i⟩] } := by
        simp only [insertOrIgnoreImage, hrow]
        rw [if_neg]
        simp only [Bool.not_eq_true]
        exact hfresh
      rw [hins]
      have hmem : (⟨nid, fn, "images/" ++ fn, "", 0, i⟩ : ImageRow) ∈
          (db.images ++ [⟨nid, fn, "images/" ++ fn, "", 0, i⟩]) := by simp
      have := importImagesFrom_images_mono nid (i + 1) es
        { db with images := db.images ++ [⟨nid, fn, "images/" ++ fn, "", 0, i⟩] }
        { st with images_imported := st.images_imported + 1 } hmem
      simpa using this
    | Nat.succ k =>
      have hget2 : es.get? k = some (ImageEntry.str fn) := by simpa using hget
      have hall2 : (es.take k).all (fun e => imageFilename e != fn) = true ∧
          (imageFilename e != fn) = true := by
        constructor
        · have := hall
          simp only [List.take, List.all_cons, Bool.and_eq_true] at this
          exact this.2
        · have := hall
          simp only [List.take, List.all_cons, Bool.and_eq_true] at this
          exact this.1
      show (⟨nid, fn, "images/" ++ fn, "", 0, i + (k + 1)⟩ : ImageRow) ∈
        (importImagesFrom nid (i + 1) es
          (insertOrIgnoreImage db (imageRowFor nid i e), _)).1.images
      have hfresh2 : (insertOrIgnoreImage db (imageRowFor nid i e)).images.any
          (fun r => r.note_id == nid && r.filename == fn) = false := by
        simp only [insertOrIgnoreImage]
        by_cases hdup : db.images.any (fun r =>
            r.note_id == (imageRowFor nid i e).note_id &&
            r.filename == (imageRowFor nid i e).filename)
        · rw [if_pos hdup]
          exact hfresh
        · rw [if_neg hdup]
          show (db.images ++ [imageRowFor nid i e]).any _ = false
          rw [List.any_append, hfresh]
          simp only [Bool.false_or, List.any_cons, List.any_nil, Bool.or_false]
          rw [imageRowFor_filename]
          have : (imageFilename e == fn) = false := by
            have h2 := hall2.2
            simp only [bne_iff_ne, ne_eq] at h2
            simpa using h2
          rw [this]
          simp
      have harith : i + 1 + k = i + (k + 1) := by omega
      have := ih (i + 1) (insertOrIgnoreImage db (imageRowFor nid i e))
        { st with images_imported := st.images_imported + 1 } k fn hget2 hfresh2 hall2.1
      rw [harith] at this
      exact this

/-! ## The Analysis rows stored for one note (claim C4) -/

/-- All `analysis` rows of the store keyed by the given note. -/
def analysesFor (db : NotesDB) (nid : String) : List AnalysisRow :=
  db.analyses.filter (fun r => r.note_id == nid)

/-- Does `import_note` attempt the Analysis insert for this payload?  The
Python guards with `if analysis:` and then `if summary or plain_text_sample:`,
so a present payload with empty summary and empty sample inserts nothing. -/
def analysisWouldInsert (oa : Option NoteAnalysis) : Bool :=
  match oa with
  | none => false
  | some a => (a.summary.getD "" != "") || (pyStrTake (a.plain_text.getD "") 1000 != "")

lemma analysesFor_eq_nil_iff (db : NotesDB) (nid : String) :
    analysesFor db nid = [] ↔ db.analyses.any (fun r => r.note_id == nid) = false := by
  simp only [analysesFor, List.filter_eq_nil_iff, List.any_eq_false]

lemma analysesFor_importAnalysisStage_len (nid : String) (oa : Option NoteAnalysis)
    (db : NotesDB) (st : RunStats) :
    (analysesFor (importAnalysisStage nid oa (db, st)).1 nid).length =
      if analysisWouldInsert oa = true ∧ analysesFor db nid = [] then
        (analysesFor db nid).length + 1
      else (analysesFor db nid).length := by
  match oa with
  | none =>
    show (analysesFor db nid).length = _
    rw [if_neg]
    rintro ⟨hw, _⟩
    cases hw
  | some a =>
    have hframe : ∀ (dbX : NotesDB),
        (importProjects nid (a.projects.getD [])
          (importIdeas nid (a.ideas.getD [])
            (importTasks nid (a.tasks.getD []) (dbX, st)))).1.analyses = dbX.analyses := by
      intro dbX
      rw [importTasks_shape, importIdeas_shape, importProjects_shape]
    by_cases hc : (a.summary.getD "") ≠ "" ∨ (pyStrTake (a.plain_text.getD "") 1000) ≠ ""
    · have hw : analysisWouldInsert (some a) = true := by
        simp only [analysisWouldInsert, Bool.or_eq_true, bne_iff_ne, ne_eq]
        exact hc
      have hstage : importAnalysisStage nid (some a) (db, st) =
          importProjects nid (a.projects.getD [])
            (importIdeas nid (a.ideas.getD [])
              (importTasks nid (a.tasks.getD [])
                (insertOrIgnoreAnalysis db
                  ⟨nid, a.summary.getD "", pyStrTake (a.plain_text.getD "") 1000⟩, st))) := by
        show importAnalysisStage nid (some a) (db, st) = _
        simp only [importAnalysisStage]
        rw [if_pos hc]
      rw [hstage]
      show ((importProjects nid (a.projects.getD [])
          (importIdeas nid (a.ideas.getD [])
            (importTasks nid (a.tasks.getD [])
              (insertOrIgnoreAnalysis db
                ⟨nid, a.summary.getD "", pyStrTake (a.plain_text.getD "") 1000⟩,
               st)))).1.analyses.filter (fun r => r.note_id == nid)).length = _
      rw [hframe]
      by_cases hnil : analysesFor db nid = []
      · have hdup : db.analyses.any (fun r => r.note_id == nid) = false :=
          (analysesFor_eq_nil_iff db nid).mp hnil
        have hins : (insertOrIgnoreAnalysis db
            ⟨nid, a.summary.getD "", pyStrTake (a.plain_text.getD "") 1000⟩).analyses =
            db.analyses ++ [⟨nid, a.summary.getD "", pyStrTake (a.plain_text.getD "") 1000⟩] := by
          simp only [insertOrIgnoreAnalysis]
          rw [if_neg]
          simp only [Bool.not_eq_true]
          exact hdup
        rw [hins, if_pos ⟨hw, hnil⟩]
        rw [List.filter_append]
        simp only [analysesFor] at hnil ⊢
        rw [hnil]
        simp [List.filter]
      · have hdup : db.analyses.any (fun r => r.note_id == nid) = true := by
          cases h : db.analyses.any (fun r => r.note_id == nid) with
          | false => exact absurd ((analysesFor_eq_nil_iff db nid).mpr h) hnil
          | true => rfl
        have hins : (insertOrIgnoreAnalysis db
            ⟨nid, a.summary.getD "", pyStrTake (a.plain_text.getD "") 1000⟩).analyses =
            db.analyses := by
          simp only [insertOrIgnoreAnalysis]
          rw [if_pos hdup]
        rw [hins, if_neg]
        · rfl
        · rintro ⟨_, h⟩
          exact hnil h
    · have hstage : importAnalysisStage nid (some a) (db, st) =
          importProjects nid (a.projects.getD [])
            (importIdeas nid (a.ideas.getD [])
              (importTasks nid (a.tasks.getD []) (db, st))) := by
        show importAnalysisStage nid (some a) (db, st) = _
        simp only [importAnalysisStage]
        rw [if_neg hc]
      rw [hstage]
      show ((importProjects nid (a.projects.getD [])
          (importIdeas nid (a.ideas.getD [])
            (importTasks nid (a.tasks.getD [])
              (db, st)))).1.analyses.filter (fun r => r.note_id == nid)).length = _
      rw [hframe]
      rw [if_neg]
      · rfl
      · rintro ⟨hw, _⟩
        simp only [analysisWouldInsert, Bool.or_eq_true, bne_iff_ne, ne_eq] at hw
        exact hc hw

/-! ## Aggregates over filtered rows (claim C2) -/

lemma foldl_skip_none (step : Option DateTime → Option DateTime → Option DateTime)
    (hstep : ∀ acc, step acc none = acc) :
    ∀ (l : List NoteRow) (acc : Option DateTime),
      ((l.filter (fun r => r.created_datetime.isSome)).map
        (fun r => r.modified_datetime)).foldl step acc =
      ((l.filter (fun r => r.created_datetime.isSome &&
          r.modified_datetime.isSome)).map (fun r => r.modified_datetime)).foldl step acc := by
  intro l
  induction l with
  | nil => intro acc; rfl
  | cons r l ih =>
    intro acc
    by_cases hc : r.created_datetime.isSome
    · by_cases hm : r.modified_datetime.isSome
      · simp only [List.filter_cons, hc, hm, Bool.and_self, if_pos, List.map_cons,
          List.foldl_cons]
        exact ih _
      · have hmn : r.modified_datetime = none := by
          cases hmod : r.modified_datetime with
          | none => rfl
          | some d => rw [hmod] at hm; simp at hm
        simp only [List.filter_cons, hc, hm, Bool.and_false, List.map_cons, List.foldl_cons,
          if_true, if_false, hmn, hstep]
        exact ih _
    · have hc2 : (r.created_datetime.isSome && r.modified_datetime.isSome) = false := by
        have hcf : r.created_datetime.isSome = false := by
          cases h : r.created_datetime.isSome with
          | false => rfl
          | true => exact absurd h hc
        rw [hcf, Bool.false_and]
      simp only [List.filter_cons, hc2]
      rw [if_neg (by simpa using hc), if_neg (by simp)]
      exact ih _

/-! ## Frame lemmas: each stage leaves the other tables untouched -/

lemma importFlatLinks_images (nid : String) (us : List String) (db : NotesDB) (st : RunStats) :
    (importFlatLinks nid us (db, st)).1.images = db.images := by
  rcases importFlatLinks_shape nid us db st with ⟨E, hE, _⟩
  rw [hE]

lemma importFlatLinks_analyses (nid : String) (us : List String) (db : NotesDB) (st : RunStats) :
    (importFlatLinks nid us (db, st)).1.analyses = db.analyses := by
  rcases importFlatLinks_shape nid us db st with ⟨E, hE, _⟩
  rw [hE]

lemma importTypedLinks_images (nid : String) (cats : List (String × List String))
    (db : NotesDB) (st : RunStats) :
    (importTypedLinks nid cats (db, st)).1.images = db.images := by
  rcases importTypedLinks_shape nid cats db st with ⟨E, hE, _⟩
  rw [hE]

lemma importTypedLinks_analyses (nid : String) (cats : List (String × List String))
    (db : NotesDB) (st : RunStats) :
    (importTypedLinks nid cats (db, st)).1.analyses = db.analyses := by
  rcases importTypedLinks_shape nid cats db st with ⟨E, hE, _⟩
  rw [hE]

lemma importImages_links (nid : String) (es : List ImageEntry) (db : NotesDB) (st : RunStats) :
    (importImages nid es (db, st)).1.links = db.links := by
  rcases importImagesFrom_shape nid es 1 db st with ⟨E, hE, _⟩
  rw [importImages, hE]

lemma importImages_analyses (nid : String) (es : List ImageEntry) (db : NotesDB) (st : RunStats) :
    (importImages nid es (db, st)).1.analyses = db.analyses := by
  rcases importImagesFrom_shape nid es 1 db st with ⟨E, hE, _⟩
  rw [importImages, hE]

lemma importCategories_links (nid : String) (cs : List String) (db : NotesDB) (st : RunStats) :
    (importCategories nid cs (db, st)).1.links = db.links := by
  rcases importCategories_shape nid cs db st with ⟨E, hE, _⟩
  rw [hE]

lemma importCategories_images (nid : String) (cs : List String) (db : NotesDB) (st : RunStats) :
    (importCategories nid cs (db, st)).1.images = db.images := by
  rcases importCategories_shape nid cs db st with ⟨E, hE, _⟩
  rw [hE]

lemma importCategories_analyses (nid : String) (cs : List String) (db : NotesDB) (st : RunStats) :
    (importCategories nid cs (db, st)).1.analyses = db.analyses := by
  rcases importCategories_shape nid cs db st with ⟨E, hE, _⟩
  rw [hE]

lemma importAnalysisStage_links (nid : String) (oa : Option NoteAnalysis)
    (db : NotesDB) (st : RunStats) :
    (importAnalysisStage nid oa (db, st)).1.links = db.links := by
  rcases importAnalysisStage_shape nid oa db st with ⟨A, hA, _⟩
  rw [hA]

lemma importAnalysisStage_images (nid : String) (oa : Option NoteAnalysis)
    (db : NotesDB) (st : RunStats) :
    (importAnalysisStage nid oa (db, st)).1.images = db.images := by
  rcases importAnalysisStage_shape nid oa db st with ⟨A, hA, _⟩
  rw [hA]

/-! ## Concrete records and stores used to evaluate the claims -/

/-- A record with every optional key absent. -/
def blankRecord : NoteRecord :=
  ⟨none, none, none, none, none, none, none, none, none, none, none, none, none, none,
   none, none⟩

/-- A concrete instance of the external HTML-to-text collaborator, used when a
claim is evaluated on a concrete input. -/
def h2tId : String → String := fun s => s

/-- A record supplying the same URL in the flat list and under a category. -/
def dupLinkRecord : NoteRecord :=
  { blankRecord with
    note_id := some "n1"
    extracted_data := some ⟨some ["https://a.com"], none⟩
    analysis := some ⟨none, none, none, none, none, some [("youtube", ["https://a.com"])]⟩ }

/-- A record whose created date is unparseable and whose modified date parses. -/
def skewDatesRecord : NoteRecord :=
  { blankRecord with
    note_id := some "n2"
    created := some "whenever"
    modified := some "2025-01-01 10:00:00" }

/-- The store after importing `skewDatesRecord` into a fresh database. -/
def skewDatesDB : NotesDB := (importNote h2tId (emptyDB, initStats) skewDatesRecord).1

/-- A record carrying an analysis payload with no summary and no plain text,
only a task. -/
def taskOnlyAnalysisRecord : NoteRecord :=
  { blankRecord with
    note_id := some "n4"
    analysis := some ⟨none, none, some [TextEntry.str "call Bob"], none, none, none⟩ }

/-- A record carrying an analysis payload with a summary. -/
def summaryAnalysisRecord : NoteRecord :=
  { blankRecord with
    note_id := some "n4w"
    analysis := some ⟨some "a summary", none, none, none, none, none⟩ }

/-- A record with one flat link, used for the partial-import scenario. -/
def oneLinkRecord : NoteRecord :=
  { blankRecord with
    note_id := some "n6"
    extracted_data := some ⟨some ["https://b.com"], none⟩ }

/-- A partially imported store: the Note row of `oneLinkRecord` is present but
its link row is missing (as after a crash between the Note insert and the
commit of its children). -/
def partialDB : NotesDB :=
  ⟨[noteRowFor h2tId oneLinkRecord "n6"], [], [], [], [], [], [], []⟩

/-- A record whose two date strings exercise both parse outcomes. -/
def datesRecord : NoteRecord :=
  { blankRecord with
    note_id := some "n8"
    created := some "Saturday, November 8, 2025 at 21:59:06"
    modified := some "whenever" }

/-- A record with one bare-string image entry. -/
def photoRecord : NoteRecord :=
  { blankRecord with
    note_id := some "n9"
    extracted_data := some ⟨none, some [ImageEntry.str "photo.png"]⟩ }

/-- Two records with distinct note ids, both lacking the external `id` key. -/
def noExtIdRecordA : NoteRecord := { blankRecord with note_id := some "nA" }

/-- Second record lacking the external `id` key. -/
def noExtIdRecordB : NoteRecord := { blankRecord with note_id := some "nB" }

/-! ## Claim C1 -/

/-- C1 (counterexample).  A record supplying `"https://a.com"` both in the
flat `extracted_data.links` list and under the `"youtube"` category produces
a single untyped link row, not one untyped and one typed row: the typed
OR IGNORE insert is absorbed by the `UNIQUE(note_id, url)` constraint. -/
theorem C1_counterexample :
    (importNote h2tId (emptyDB, initStats) dupLinkRecord).1.links =
      [⟨"n1", "https://a.com", none⟩] ∧
    ((importNote h2tId (emptyDB, initStats) dupLinkRecord).1.links.filter
        (fun r => r.link_type.isSome)).length = 0 :=
  ⟨by decide, by decide⟩

/-- C1 (amended).  For any note record that supplies the same URL both in the
flat `extracted_data.links` list and under some category in
`analysis.links_categorized`, importing the note into a store holding no link
row for that `(note_id, url)` pair produces exactly ONE link row for that URL,
and it is untyped: the flat list is imported first and the later typed insert
is ignored, because the `UNIQUE(note_id, url)` constraint deduplicates on the
pair alone, regardless of `link_type`. -/
theorem C1_single_untyped_row (h2t : String → String) (db : NotesDB) (st : RunStats)
    (nd : NoteRecord) (nid u : String)
    (hid : nd.note_id = some nid) (hne : nid ≠ "")
    (hok : notesInsertError db (noteRowFor h2t nd nid) = none)
    (hfresh : linksFor db nid u = [])
    (hmem : u ∈ flatLinksOf nd)
    (_hcat : ∃ p ∈ categorizedLinksOf nd, u ∈ p.2) :
    linksFor (importNote h2t (db, st) nd).1 nid u = [⟨nid, u, none⟩] := by
  rw [importNote_success_eq h2t db st nd nid hid hne hok]
  have hfresh0 : linksFor { db with notes := db.notes ++ [noteRowFor h2t nd nid] } nid u = [] :=
    hfresh
  rcases hflat : importFlatLinks nid (flatLinksOf nd)
      ({ db with notes := db.notes ++ [noteRowFor h2t nd nid] },
       { st with notes_imported := st.notes_imported + 1 }) with ⟨db1, st1⟩
  have h1 : linksFor db1 nid u = [⟨nid, u, none⟩] := by
    have hm := linksFor_importFlatLinks_mem nid u (flatLinksOf nd)
      { db with notes := db.notes ++ [noteRowFor h2t nd nid] }
      { st with notes_imported := st.notes_imported + 1 } hmem hfresh0
    rw [hflat] at hm
    exact hm
  rcases htyped : importTypedLinks nid (categorizedLinksOf nd) (db1, st1) with ⟨db2, st2⟩
  have h2 : linksFor db2 nid u = [⟨nid, u, none⟩] := by
    have hp := linksFor_importTypedLinks_preserved nid (categorizedLinksOf nd) db1 st1 nid u
      (by rw [h1]; simp)
    rw [htyped] at hp
    rw [show linksFor db2 nid u = linksFor (db2, st2).1 nid u from rfl, hp, h1]
  rcases himg : importImages nid (imagesOf nd) (db2, st2) with ⟨db3, st3⟩
  have h3 : db3.links = db2.links := by
    have hf := importImages_links nid (imagesOf nd) db2 st2
    rw [himg] at hf
    exact hf
  rcases hcatg : importCategories nid (categoriesOf nd) (db3, st3) with ⟨db4, st4⟩
  have h4 : db4.links = db3.links := by
    have hf := importCategories_links nid (categoriesOf nd) db3 st3
    rw [hcatg] at hf
    exact hf
  have h5 : (importAnalysisStage nid nd.analysis (db4, st4)).1.links = db4.links :=
    importAnalysisStage_links nid nd.analysis db4 st4
  have hlinks : (importAnalysisStage nid nd.analysis (db4, st4)).1.links = db2.links := by
    rw [h5, h4, h3]
  simp only [linksFor] at h2 ⊢
  rw [hlinks]
  exact h2

/-- C1 (witness).  The amended statement evaluated on `dupLinkRecord` over a
fresh store. -/
theorem C1_witness :
    dupLinkRecord.note_id = some "n1" ∧ ("n1" : String) ≠ "" ∧
    notesInsertError emptyDB (noteRowFor h2tId dupLinkRecord "n1") = none ∧
    linksFor emptyDB "n1" "https://a.com" = [] ∧
    "https://a.com" ∈ flatLinksOf dupLinkRecord ∧
    (∃ p ∈ categorizedLinksOf dupLinkRecord, "https://a.com" ∈ p.2) ∧
    linksFor (importNote h2tId (emptyDB, initStats) dupLinkRecord).1 "n1" "https://a.com" =
      [⟨"n1", "https://a.com", none⟩] :=
  ⟨rfl, by decide, by decide, by decide, by decide, by decide,
   C1_single_untyped_row h2tId emptyDB initStats dupLinkRecord "n1" "https://a.com"
     rfl (by decide) (by decide) (by decide) (by decide) (by decide)⟩

/-! ## Claim C2 -/

/-- C2 (counterexample).  After importing a note whose created date is
unparseable (`"whenever"`) but whose modified date parses
(`"2025-01-01 10:00:00"`), the report's modified range is empty, while the
range computed "over exactly the notes whose modified date parsed" (the
claim's wording, `dateRangesModifiedClaim`) contains its timestamp: the
single `WHERE created_datetime IS NOT NULL` clause also filters the modified
aggregates. -/
theorem C2_counterexample :
    (dateRanges skewDatesDB).earliest_modified = none ∧
    (dateRanges skewDatesDB).latest_modified = none ∧
    dateRangesModifiedClaim skewDatesDB =
      (some ⟨2025, 1, 1, 10, 0, 0⟩, some ⟨2025, 1, 1, 10, 0, 0⟩) :=
  ⟨by decide, by decide, by decide⟩

/-- C2 (amended).  The earliest/latest created timestamps are computed over
exactly the notes whose created date parsed; the earliest/latest modified
timestamps, however, are computed over the notes whose created AND modified
dates both parsed — a note with a null created timestamp is excluded from the
modified range as well.  Null timestamps are skipped by the aggregates, never
replaced by an epoch or default value. -/
theorem C2_date_ranges (db : NotesDB) :
    dateRanges db =
      { earliest_created :=
          sqlMin ((db.notes.filter (fun r => r.created_datetime.isSome)).map
            (fun r => r.created_datetime))
        latest_created :=
          sqlMax ((db.notes.filter (fun r => r.created_datetime.isSome)).map
            (fun r => r.created_datetime))
        earliest_modified :=
          sqlMin ((db.notes.filter (fun r =>
            r.created_datetime.isSome && r.modified_datetime.isSome)).map
            (fun r => r.modified_datetime))
        latest_modified :=
          sqlMax ((db.notes.filter (fun r =>
            r.created_datetime.isSome && r.modified_datetime.isSome)).map
            (fun r => r.modified_datetime)) } := by
  simp only [dateRanges, sqlMin, sqlMax]
  have h1 := foldl_skip_none sqlMinStep (fun acc => rfl) db.notes none
  have h2 := foldl_skip_none sqlMaxStep (fun acc => rfl) db.notes none
  rw [h1, h2]

/-! ## Claim C3 -/

/-- C3 (counterexample).  Importing `dupLinkRecord` (its one URL supplied
both flat and categorized) reports `links_imported = 2` while only one link
row was actually inserted: the counter is bumped even when the OR IGNORE
insert is absorbed as a no-op. -/
theorem C3_counterexample :
    (importRun h2tId (emptyDB, initStats) [dupLinkRecord]).2.links_imported = 2 ∧
    (importRun h2tId (emptyDB, initStats) [dupLinkRecord]).1.links.length = 1 :=
  ⟨by decide, by decide⟩

/-- C3 (amended).  For every import run from a fresh store, the
tasks/ideas/projects counters equal the number of rows of those kinds
actually inserted (their inserts are plain, append-always); the
links/images/categories counters count processed entries — including
ignore-on-duplicate inserts absorbed as no-ops — and are therefore only upper
bounds on the number of rows actually inserted. -/
theorem C3_counters (h2t : String → String) (notes : List NoteRecord) :
    (importRun h2t (emptyDB, initStats) notes).2.tasks_imported =
      (importRun h2t (emptyDB, initStats) notes).1.tasks.length ∧
    (importRun h2t (emptyDB, initStats) notes).2.ideas_imported =
      (importRun h2t (emptyDB, initStats) notes).1.ideas.length ∧
    (importRun h2t (emptyDB, initStats) notes).2.projects_imported =
      (importRun h2t (emptyDB, initStats) notes).1.projects.length ∧
    (importRun h2t (emptyDB, initStats) notes).1.links.length ≤
      (importRun h2t (emptyDB, initStats) notes).2.links_imported ∧
    (importRun h2t (emptyDB, initStats) notes).1.images.length ≤
      (importRun h2t (emptyDB, initStats) notes).2.images_imported ∧
    (importRun h2t (emptyDB, initStats) notes).1.categories.length ≤
      (importRun h2t (emptyDB, initStats) notes).2.categories_imported := by
  have h := importRun_countsInv h2t notes (emptyDB, initStats)
    (by simp [countsInv, emptyDB, initStats])
  exact h

/-! ## Claim C4 -/

/-- C4 (counterexample).  A record carrying an analysis payload (its task
list is imported, so the payload is present and acted upon) whose summary and
plain text are absent produces NO Analysis row: the `if summary or
plain_text_sample:` guard skips the insert, refuting "an Analysis row is
created if the record carries an analysis payload". -/
theorem C4_counterexample :
    taskOnlyAnalysisRecord.analysis.isSome = true ∧
    (importNote h2tId (emptyDB, initStats) taskOnlyAnalysisRecord).1.tasks.length = 1 ∧
    analysesFor (importNote h2tId (emptyDB, initStats) taskOnlyAnalysisRecord).1 "n4" = [] :=
  ⟨by decide, by decide, by decide⟩

/-- C4 (amended).  For a note record whose Note row inserts successfully, the
number of Analysis rows for that note after the import equals: one more than
before when the record carries an analysis payload whose summary or
1000-character plain-text sample is non-empty AND no Analysis row for the
note existed yet; and is unchanged otherwise (in particular a duplicate
Analysis insert for the same note_id is ignored, so at most one row ever
exists per note). -/
theorem C4_analysis_row (h2t : String → String) (db : NotesDB) (st : RunStats)
    (nd : NoteRecord) (nid : String)
    (hid : nd.note_id = some nid) (hne : nid ≠ "")
    (hok : notesInsertError db (noteRowFor h2t nd nid) = none) :
    (analysesFor (importNote h2t (db, st) nd).1 nid).length =
      if analysisWouldInsert nd.analysis = true ∧ analysesFor db nid = [] then
        (analysesFor db nid).length + 1
      else (analysesFor db nid).length := by
  rw [importNote_success_eq h2t db st nd nid hid hne hok]
  rcases hflat : importFlatLinks nid (flatLinksOf nd)
      ({ db with notes := db.notes ++ [noteRowFor h2t nd nid] },
       { st with notes_imported := st.notes_imported + 1 }) with ⟨db1, st1⟩
  have h1 : db1.analyses = db.analyses := by
    have hf := importFlatLinks_analyses nid (flatLinksOf nd)
      { db with notes := db.notes ++ [noteRowFor h2t nd nid] }
      { st with notes_imported := st.notes_imported + 1 }
    rw [hflat] at hf
    exact hf
  rcases htyped : importTypedLinks nid (categorizedLinksOf nd) (db1, st1) with ⟨db2, st2⟩
  have h2 : db2.analyses = db.analyses := by
    have hf := importTypedLinks_analyses nid (categorizedLinksOf nd) db1 st1
    rw [htyped] at hf
    rw [hf, h1]
  rcases himg : importImages nid (imagesOf nd) (db2, st2) with ⟨db3, st3⟩
  have h3 : db3.analyses = db.analyses := by
    have hf := importImages_analyses nid (imagesOf nd) db2 st2
    rw [himg] at hf
    rw [hf, h2]
  rcases hcatg : importCategories nid (categoriesOf nd) (db3, st3) with ⟨db4, st4⟩
  have h4 : db4.analyses = db.analyses := by
    have hf := importCategories_analyses nid (categoriesOf nd) db3 st3
    rw [hcatg] at hf
    rw [hf, h3]
  have hfor : analysesFor db4 nid = analysesFor db nid := by
    simp only [analysesFor, h4]
  rw [analysesFor_importAnalysisStage_len nid nd.analysis db4 st4, hfor]

/-- C4 (witness).  The amended statement evaluated on a record whose analysis
payload carries a summary, over a fresh store. -/
theorem C4_witness :
    summaryAnalysisRecord.note_id = some "n4w" ∧ ("n4w" : String) ≠ "" ∧
    notesInsertError emptyDB (noteRowFor h2tId summaryAnalysisRecord "n4w") = none ∧
    (analysesFor (importNote h2tId (emptyDB, initStats) summaryAnalysisRecord).1 "n4w").length =
      if analysisWouldInsert summaryAnalysisRecord.analysis = true ∧
          analysesFor emptyDB "n4w" = [] then
        (analysesFor emptyDB "n4w").length + 1
      else (analysesFor emptyDB "n4w").length :=
  ⟨rfl, by decide, by decide,
   C4_analysis_row h2tId emptyDB initStats summaryAnalysisRecord "n4w"
     rfl (by decide) (by decide)⟩

/-! ## Claim C5 -/

/-- C5.  Importing a record whose `note_id` equals the primary key of an
already-stored Note row leaves the whole store — in particular the existing
Note row — unchanged, appends one per-note error entry naming that note_id to
the run's error log, and the run continues with the remaining records without
raising. -/
theorem C5_duplicate_note (h2t : String → String) (db : NotesDB) (st : RunStats)
    (nd : NoteRecord) (nid : String) (rest : List NoteRecord)
    (hid : nd.note_id = some nid) (hne : nid ≠ "")
    (hdup : ∃ r ∈ db.notes, r.note_id = nid) :
    (importNote h2t (db, st) nd).1 = db ∧
    (importNote h2t (db, st) nd).2.errors = st.errors ++
      ["Failed to import note " ++ nid ++ ": " ++ "UNIQUE constraint failed: notes.note_id"] ∧
    importRun h2t (db, st) (nd :: rest) =
      importRun h2t (db, (importNote h2t (db, st) nd).2) rest := by
  have hpk : db.notes.any (fun r => r.note_id == nid) = true := by
    rcases hdup with ⟨r, hr, hrid⟩
    rw [List.any_eq_true]
    exact ⟨r, hr, by simp [hrid]⟩
  have herr : notesInsertError db (noteRowFor h2t nd nid) =
      some "UNIQUE constraint failed: notes.note_id" := by
    simp only [notesInsertError, noteRowFor_note_id]
    rw [if_pos hpk]
  have hconf := importNote_conflict h2t db st nd nid
    "UNIQUE constraint failed: notes.note_id" hid hne herr
  refine ⟨by rw [hconf], by rw [hconf]; rfl, ?_⟩
  show importRun h2t (importNote h2t (db, st) nd) rest = _
  rw [hconf]

/-- C5 (witness).  The statement evaluated on re-importing `oneLinkRecord`
into the store already holding its Note row. -/
theorem C5_witness :
    oneLinkRecord.note_id = some "n6" ∧ ("n6" : String) ≠ "" ∧
    (∃ r ∈ partialDB.notes, r.note_id = "n6") ∧
    ((importNote h2tId (partialDB, initStats) oneLinkRecord).1 = partialDB ∧
     (importNote h2tId (partialDB, initStats) oneLinkRecord).2.errors = initStats.errors ++
       ["Failed to import note " ++ "n6" ++ ": " ++ "UNIQUE constraint failed: notes.note_id"] ∧
     importRun h2tId (partialDB, initStats) (oneLinkRecord :: []) =
       importRun h2tId (partialDB, (importNote h2tId (partialDB, initStats) oneLinkRecord).2) []) :=
  ⟨rfl, by decide, by decide,
   C5_duplicate_note h2tId partialDB initStats oneLinkRecord "n6" []
     rfl (by decide) (by decide)⟩

/-! ## Claim C6 -/

/-- C6 (counterexample).  Re-importing `oneLinkRecord` into a store holding
its Note row but missing its link row does NOT restore the link row (the
duplicate-key failure of the Note insert skips every child stage), whereas a
clean import of the same record produces it — so a partially imported note
does not converge to the clean-import row set. -/
theorem C6_counterexample :
    (importNote h2tId (partialDB, initStats) oneLinkRecord).1.links.length = 0 ∧
    (importNote h2tId (emptyDB, initStats) oneLinkRecord).1.links.length = 1 :=
  ⟨by decide, by decide⟩

/-- C6 (amended).  A second identical import pass over the store produced by
a first pass from a fresh database leaves the store — in particular the Link,
Image, and Category row counts — entirely unchanged; however this happens
because every Note-row insert of the second pass fails on the duplicate
primary key (or duplicate coredata_id), which skips all child stages: in
particular re-importing a note whose Note row already exists leaves the store
unchanged, so missing child rows of a partially imported note are NOT
restored. -/
theorem C6_second_pass (h2t : String → String) (notes : List NoteRecord) (st2 : RunStats)
    (db : NotesDB) (st : RunStats) (nd : NoteRecord) (nid : String)
    (hid : nd.note_id = some nid)
    (hdup : ∃ r ∈ db.notes, r.note_id = nid) :
    (importRun h2t ((importRun h2t (emptyDB, initStats) notes).1, st2) notes).1 =
      (importRun h2t (emptyDB, initStats) notes).1 ∧
    (importNote h2t (db, st) nd).1 = db := by
  constructor
  · have hall := importRun_post_blocked h2t notes (emptyDB, initStats)
      (importRun h2t (emptyDB, initStats) notes).1 (fun r hr => hr)
    exact importRun_db_of_all_blocked h2t notes _ st2 hall
  · have hb : recordBlocked db nd := by
      rw [recordBlocked, hid]
      refine Or.inr (Or.inl ?_)
      rcases hdup with ⟨r, hr, hrid⟩
      rw [List.any_eq_true]
      exact ⟨r, hr, by simp [hrid]⟩
    exact importNote_db_of_blocked h2t db st nd hb

/-- C6 (witness).  The amended statement evaluated on the one-record run
`[oneLinkRecord]` and on re-importing it into the partially imported
store. -/
theorem C6_witness :
    oneLinkRecord.note_id = some "n6" ∧
    (∃ r ∈ partialDB.notes, r.note_id = "n6") ∧
    ((importRun h2tId ((importRun h2tId (emptyDB, initStats) [oneLinkRecord]).1, initStats)
        [oneLinkRecord]).1 =
      (importRun h2tId (emptyDB, initStats) [oneLinkRecord]).1 ∧
     (importNote h2tId (partialDB, initStats) oneLinkRecord).1 = partialDB) :=
  ⟨rfl, by decide,
   C6_second_pass h2tId [oneLinkRecord] initStats partialDB initStats oneLinkRecord "n6"
     rfl (by decide)⟩

/-! ## Claim C7 -/

/-- C7.  Foreign-key enforcement is switched on by `connect` for the
connection lifetime, and — because every child table declares `ON DELETE
CASCADE` — deleting a Note row succeeds and removes exactly the child rows
referencing it from all seven child tables, so no child row is left
referencing the deleted note_id while child rows of other notes are
retained. -/
theorem C7_cascade_delete (db : NotesDB) (nid : String) :
    connect_foreign_keys = true ∧
    ∃ db', deleteNote connect_foreign_keys db nid = some db' ∧
      db'.notes = db.notes.filter (fun r => r.note_id != nid) ∧
      db'.links = db.links.filter (fun r => r.note_id != nid) ∧
      db'.images = db.images.filter (fun r => r.note_id != nid) ∧
      db'.categories = db.categories.filter (fun r => r.note_id != nid) ∧
      db'.analyses = db.analyses.filter (fun r => r.note_id != nid) ∧
      db'.tasks = db.tasks.filter (fun r => r.note_id != nid) ∧
      db'.ideas = db.ideas.filter (fun r => r.note_id != nid) ∧
      db'.projects = db.projects.filter (fun r => r.note_id != nid) ∧
      db'.links.all (fun r => r.note_id != nid) = true ∧
      db'.images.all (fun r => r.note_id != nid) = true ∧
      db'.categories.all (fun r => r.note_id != nid) = true ∧
      db'.analyses.all (fun r => r.note_id != nid) = true ∧
      db'.tasks.all (fun r => r.note_id != nid) = true ∧
      db'.ideas.all (fun r => r.note_id != nid) = true ∧
      db'.projects.all (fun r => r.note_id != nid) = true := by
  have hfilter : ∀ (α : Type) (refs : α → String) (rows : List α),
      ((rows.filter (fun r => refs r != nid)).all (fun r => refs r != nid)) = true := by
    intro α refs rows
    rw [List.all_eq_true]
    intro r hr
    exact (List.mem_filter.mp hr).2
  exact ⟨rfl,
    ⟨{ notes := db.notes.filter (fun r => r.note_id != nid)
       links := db.links.filter (fun r => r.note_id != nid)
       images := db.images.filter (fun r => r.note_id != nid)
       categories := db.categories.filter (fun r => r.note_id != nid)
       analyses := db.analyses.filter (fun r => r.note_id != nid)
       tasks := db.tasks.filter (fun r => r.note_id != nid)
       ideas := db.ideas.filter (fun r => r.note_id != nid)
       projects := db.projects.filter (fun r => r.note_id != nid) },
     rfl, rfl, rfl, rfl, rfl, rfl, rfl, rfl, rfl,
     hfilter _ LinkRow.note_id db.links, hfilter _ ImageRow.note_id db.images,
     hfilter _ CategoryRow.note_id db.categories, hfilter _ AnalysisRow.note_id db.analyses,
     hfilter _ TaskRow.note_id db.tasks, hfilter _ IdeaRow.note_id db.ideas,
     hfilter _ ProjectRow.note_id db.projects⟩⟩

/-! ## Claim C8 -/

/-- C8.  The date parser maps `"Saturday, November 8, 2025 at 21:59:06"` to
the timestamp 2025-11-08 21:59:06 and maps the unparseable `"whenever"` to a
null timestamp (the parser is a total function, so no exception escapes); and
whenever the Note row is inserted, it stores the original raw created and
modified strings verbatim, with the parsed timestamp columns holding exactly
the parser's output, whatever the parse outcome. -/
theorem C8_date_parsing (h2t : String → String) (db : NotesDB) (st : RunStats)
    (nd : NoteRecord) (nid : String)
    (hid : nd.note_id = some nid) (hne : nid ≠ "")
    (hok : notesInsertError db (noteRowFor h2t nd nid) = none) :
    parse_macos_date "Saturday, November 8, 2025 at 21:59:06" =
      some ⟨2025, 11, 8, 21, 59, 6⟩ ∧
    parse_macos_date "whenever" = none ∧
    (importNote h2t (db, st) nd).1.notes = db.notes ++ [noteRowFor h2t nd nid] ∧
    (noteRowFor h2t nd nid).created_raw = nd.created.getD "" ∧
    (noteRowFor h2t nd nid).created_datetime = parse_macos_date (nd.created.getD "") ∧
    (noteRowFor h2t nd nid).modified_raw = nd.modified.getD "" ∧
    (noteRowFor h2t nd nid).modified_datetime = parse_macos_date (nd.modified.getD "") := by
  refine ⟨by decide, by decide, ?_, rfl, rfl, rfl, rfl⟩
  rcases importNote_success_shape h2t db st nd nid hid hne hok with
    ⟨L, Im, C, A, heq, _, _, _, _⟩
  rw [heq]

/-- C8 (witness).  The statement evaluated on a record whose created string
is the canonical macOS date and whose modified string is unparseable. -/
theorem C8_witness :
    datesRecord.note_id = some "n8" ∧ ("n8" : String) ≠ "" ∧
    notesInsertError emptyDB (noteRowFor h2tId datesRecord "n8") = none ∧
    (parse_macos_date "Saturday, November 8, 2025 at 21:59:06" =
      some ⟨2025, 11, 8, 21, 59, 6⟩ ∧
     parse_macos_date "whenever" = none ∧
     (importNote h2tId (emptyDB, initStats) datesRecord).1.notes =
       emptyDB.notes ++ [noteRowFor h2tId datesRecord "n8"] ∧
     (noteRowFor h2tId datesRecord "n8").created_raw = datesRecord.created.getD "" ∧
     (noteRowFor h2tId datesRecord "n8").created_datetime =
       parse_macos_date (datesRecord.created.getD "") ∧
     (noteRowFor h2tId datesRecord "n8").modified_raw = datesRecord.modified.getD "" ∧
     (noteRowFor h2tId datesRecord "n8").modified_datetime =
       parse_macos_date (datesRecord.modified.getD "")) :=
  ⟨rfl, by decide, by decide,
   C8_date_parsing h2tId emptyDB initStats datesRecord "n8" rfl (by decide) (by decide)⟩

/-! ## Claim C9 -/

/-- C9.  For a note record whose `extracted_data.images` entry at 0-based
position `j` is a bare string `fn` (with no earlier entry resolving to the
same filename and no pre-existing row for it), the import stores an Image row
with that string as filename, relative path `images/<fn>`, empty format, size
0, and extraction order `j + 1` — the entry's 1-based position. -/
theorem C9_bare_string_image (h2t : String → String) (db : NotesDB) (st : RunStats)
    (nd : NoteRecord) (nid : String) (j : Nat) (fn : String)
    (hid : nd.note_id = some nid) (hne : nid ≠ "")
    (hok : notesInsertError db (noteRowFor h2t nd nid) = none)
    (hget : (imagesOf nd).get? j = some (ImageEntry.str fn))
    (hfresh : db.images.any (fun r => r.note_id == nid && r.filename == fn) = false)
    (hbefore : ((imagesOf nd).take j).all (fun e => imageFilename e != fn) = true) :
    (⟨nid, fn, "images/" ++ fn, "", 0, j + 1⟩ : ImageRow) ∈
      (importNote h2t (db, st) nd).1.images := by
  rw [importNote_success_eq h2t db st nd nid hid hne hok]
  rcases hflat : importFlatLinks nid (flatLinksOf nd)
      ({ db with notes := db.notes ++ [noteRowFor h2t nd nid] },
       { st with notes_imported := st.notes_imported + 1 }) with ⟨db1, st1⟩
  have h1 : db1.images = db.images := by
    have hf := importFlatLinks_images nid (flatLinksOf nd)
      { db with notes := db.notes ++ [noteRowFor h2t nd nid] }
      { st with notes_imported := st.notes_imported + 1 }
    rw [hflat] at hf
    exact hf
  rcases htyped : importTypedLinks nid (categorizedLinksOf nd) (db1, st1) with ⟨db2, st2⟩
  have h2 : db2.images = db.images := by
    have hf := importTypedLinks_images nid (categorizedLinksOf nd) db1 st1
    rw [htyped] at hf
    rw [hf, h1]
  have hfresh2 : db2.images.any (fun r => r.note_id == nid && r.filename == fn) = false := by
    rw [h2]
    exact hfresh
  have hmem := importImagesFrom_mem nid (imagesOf nd) 1 db2 st2 j fn hget hfresh2 hbefore
  rcases himg : importImages nid (imagesOf nd) (db2, st2) with ⟨db3, st3⟩
  have hmem3 : (⟨nid, fn, "images/" ++ fn, "", 0, 1 + j⟩ : ImageRow) ∈ db3.images := by
    rw [importImages] at himg
    rw [himg] at hmem
    exact hmem
  rcases hcatg : importCategories nid (categoriesOf nd) (db3, st3) with ⟨db4, st4⟩
  have h4 : db4.images = db3.images := by
    have hf := importCategories_images nid (categoriesOf nd) db3 st3
    rw [hcatg] at hf
    exact hf
  have h5 : (importAnalysisStage nid nd.analysis (db4, st4)).1.images = db4.images :=
    importAnalysisStage_images nid nd.analysis db4 st4
  rw [h5, h4]
  have harith : 1 + j = j + 1 := by omega
  rw [harith] at hmem3
  exact hmem3

/-- C9 (witness).  The statement evaluated on a record whose image list is
the single bare string `"photo.png"`. -/
theorem C9_witness :
    photoRecord.note_id = some "n9" ∧ ("n9" : String) ≠ "" ∧
    notesInsertError emptyDB (noteRowFor h2tId photoRecord "n9") = none ∧
    (imagesOf photoRecord).get? 0 = some (ImageEntry.str "photo.png") ∧
    emptyDB.images.any (fun r => r.note_id == "n9" && r.filename == "photo.png") = false ∧
    ((imagesOf photoRecord).take 0).all (fun e => imageFilename e != "photo.png") = true ∧
    (⟨"n9", "photo.png", "images/" ++ "photo.png", "", 0, 0 + 1⟩ : ImageRow) ∈
      (importNote h2tId (emptyDB, initStats) photoRecord).1.images :=
  ⟨rfl, by decide, by decide, by decide, by decide, by decide,
   C9_bare_string_image h2tId emptyDB initStats photoRecord "n9" 0 "photo.png"
     rfl (by decide) (by decide) (by decide) (by decide) (by decide)⟩

/-! ## Claim C10 -/

/-- C10.  For two records with distinct note ids that both lack the external
`id` key, the first import succeeds but the second fails the Note-row insert
with a uniqueness violation on `coredata_id` — a missing external id is
stored as the empty string, not NULL, so two of them collide on the UNIQUE
column — recorded as a per-note error naming the second note_id, with none of
the second record's rows inserted (the store is unchanged). -/
theorem C10_empty_coredata_collision (h2t : String → String) (nd1 nd2 : NoteRecord)
    (n1 n2 : String)
    (hid1 : nd1.note_id = some n1) (hne1 : n1 ≠ "")
    (hid2 : nd2.note_id = some n2) (hne2 : n2 ≠ "")
    (hdiff : n1 ≠ n2)
    (hmiss1 : nd1.id = none) (hmiss2 : nd2.id = none) :
    (importNote h2t (emptyDB, initStats) nd1).1.notes = [noteRowFor h2t nd1 n1] ∧
    importNote h2t (importNote h2t (emptyDB, initStats) nd1) nd2 =
      ((importNote h2t (emptyDB, initStats) nd1).1,
       addError (importNote h2t (emptyDB, initStats) nd1).2
         ("Failed to import note " ++ n2 ++ ": " ++
          "UNIQUE constraint failed: notes.coredata_id")) := by
  have hok1 : notesInsertError emptyDB (noteRowFor h2t nd1 n1) = none := rfl
  rcases importNote_success_shape h2t emptyDB initStats nd1 n1 hid1 hne1 hok1 with
    ⟨L, Im, C, A, heq, _, _, _, _⟩
  have hnotes : (importNote h2t (emptyDB, initStats) nd1).1.notes =
      [noteRowFor h2t nd1 n1] := by
    rw [heq]
    show emptyDB.notes ++ [noteRowFor h2t nd1 n1] = _
    rfl
  refine ⟨hnotes, ?_⟩
  rcases hs1 : importNote h2t (emptyDB, initStats) nd1 with ⟨db1, st1⟩
  rw [hs1] at hnotes
  have hpkfalse : db1.notes.any (fun r => r.note_id == n2) = false := by
    show db1.notes.any (fun r => r.note_id == n2) = false
    rw [show db1.notes = [noteRowFor h2t nd1 n1] from hnotes]
    simp only [List.any_cons, List.any_nil, Bool.or_false, noteRowFor_note_id]
    simp [hdiff]
  have hcdtrue : db1.notes.any
      (fun r => uniqueClash r.coredata_id (some (nd2.id.getD ""))) = true := by
    rw [show db1.notes = [noteRowFor h2t nd1 n1] from hnotes]
    simp only [List.any_cons, List.any_nil, Bool.or_false, noteRowFor_coredata_id]
    rw [hmiss1, hmiss2]
    rfl
  have herr : notesInsertError db1 (noteRowFor h2t nd2 n2) =
      some "UNIQUE constraint failed: notes.coredata_id" := by
    simp only [notesInsertError, noteRowFor_note_id, noteRowFor_coredata_id, hpkfalse,
      hcdtrue]
    simp
  exact importNote_conflict h2t db1 st1 nd2 n2
    "UNIQUE constraint failed: notes.coredata_id" hid2 hne2 herr

/-- C10 (witness).  The statement evaluated on two bare records `nA`, `nB`
that both lack the external `id` key. -/
theorem C10_witness :
    noExtIdRecordA.note_id = some "nA" ∧ ("nA" : String) ≠ "" ∧
    noExtIdRecordB.note_id = some "nB" ∧ ("nB" : String) ≠ "" ∧
    ("nA" : String) ≠ "nB" ∧
    noExtIdRecordA.id = none ∧ noExtIdRecordB.id = none ∧
    ((importNote h2tId (emptyDB, initStats) noExtIdRecordA).1.notes =
      [noteRowFor h2tId noExtIdRecordA "nA"] ∧
     importNote h2tId (importNote h2tId (emptyDB, initStats) noExtIdRecordA) noExtIdRecordB =
      ((importNote h2tId (emptyDB, initStats) noExtIdRecordA).1,
       addError (importNote h2tId (emptyDB, initStats) noExtIdRecordA).2
         ("Failed to import note " ++ "nB" ++ ": " ++
          "UNIQUE constraint failed: notes.coredata_id"))) :=
  ⟨rfl, by decide, rfl, by decide, by decide, rfl, rfl,
   C10_empty_coredata_collision h2tId noExtIdRecordA noExtIdRecordB "nA" "nB"
     rfl (by decide) rfl (by decide) (by decide) rfl rfl⟩
